import Mathlib

/-!
# Payment control server: invoice lifecycle, query builder and scheduled sweeps

A shallow embedding of the invoice ("factura") core of the server:

* `src/utils/apiFeatures.js`            : `ApiFeatures` (filter / sort / paginate)
* `src/controllers/facturas.controller.js` : the request handlers
* `src/middlewares/facturas.validator.js`  : the express-validator chains
* `src/models/factura.model.js`          : the `Factura` table (paranoid, ENUM status)
* `src/services/cron.service.js`         : the two scheduled jobs
* `src/services/email.service.js`        : the notification sender
* `src/middlewares/auth.middleware.js`   : the `protect` middleware

Modelling conventions.

* Instants are integers: milliseconds since the epoch, as in a JavaScript `Date`.
  A `Date` object is an `Option Int`, `none` being `Invalid Date`; a JavaScript
  number that may be `NaN` is an `Option Int` too.
* The server's time zone is a fixed offset `Clock.offset` (local = UTC + offset);
  daylight-saving transitions are not modelled.
* A JavaScript object is an association list `Obj α`; a missing key is `undefined`.
* The `facturas` table is a list of rows. Sequelize is an external library: its
  documented behaviour (paranoid scoping of queries, soft delete, eager-loading
  alias resolution) is written out as definitions on that list. In the handlers every
  store call completes; a failing store is modelled for the scheduled jobs only
  (`Firing.storeFault`).
* A request body is an `Obj JsVal`: its fields are scalars, arrays or objects, as the body
  parsers leave them. express-validator and validator.js are external libraries: the
  way a chain reads a field (its string form, one test per item of an array) is written
  out in `stringify` and `checkField`.
* `createdAt` / `updatedAt` are kept by the store and never read or written by the
  code embedded here; they are not part of the row model.
-/

namespace PaymentControl

/-! ## JavaScript objects and request values -/

/-- A JavaScript object with string keys, in insertion order. -/
abbrev Obj (α : Type) := List (String × α)

/-- Property read `o[k]`; `none` is `undefined`. -/
def Obj.get {α : Type} (o : Obj α) (k : String) : Option α :=
  match o with
  | [] => none
  | (k', v) :: rest => if k' = k then some v else Obj.get rest k

/-- Property write `o[k] = v`: overwrite in place, or append a new key. -/
def Obj.set {α : Type} (o : Obj α) (k : String) (v : α) : Obj α :=
  match o with
  | [] => [(k, v)]
  | (k', v') :: rest => if k' = k then (k', v) :: rest else (k', v') :: Obj.set rest k v

/-- Property removal `delete o[k]`. -/
def Obj.delete {α : Type} (o : Obj α) (k : String) : Obj α :=
  o.filter (fun kv => kv.1 ≠ k)

/-- A value of the parsed query string `req.query`: a string, or an array of
strings for a repeated parameter. (Nested objects of the extended parser are not
modelled.) -/
inductive QVal where
  | str (s : String)
  | arr (xs : List String)
  deriving DecidableEq, Repr

/-- JavaScript `String(v)` on a query value (`Array.prototype.toString` joins with commas). -/
def QVal.toStr : QVal → String
  | .str s => s
  | .arr xs => ",".intercalate xs

/-- JavaScript truthiness of a possibly-undefined query value: a string is truthy
when non-empty, an array always. -/
def QVal.truthy : Option QVal → Bool
  | none => false
  | some (.str s) => s ≠ ""
  | some (.arr _) => true

/-- A value of a request body field as `express.json()` and `express.urlencoded()` leave
it in `req.body` (`undefined` is a missing key): a scalar, an array of values, or an
object. JSON numbers are modelled as integers; fractional amounts travel as strings.
The members of an object are never read by the code embedded here, so `obj` does not
carry them; it stands for an object that has no member named `toString`, whose text is
the one `Object.prototype.toString` gives. -/
inductive JsVal where
  | null
  | bool (b : Bool)
  | num (n : Int)
  | str (s : String)
  | arr (items : List JsVal)
  | obj
  deriving Repr

/-- Equality of body values is decidable. -/
def JsVal.decEq : (a b : JsVal) → Decidable (a = b)
  | .null, .null => isTrue rfl
  | .obj, .obj => isTrue rfl
  | .bool a, .bool b =>
    if h : a = b then isTrue (by rw [h]) else isFalse (by intro e; cases e; exact h rfl)
  | .num a, .num b =>
    if h : a = b then isTrue (by rw [h]) else isFalse (by intro e; cases e; exact h rfl)
  | .str a, .str b =>
    if h : a = b then isTrue (by rw [h]) else isFalse (by intro e; cases e; exact h rfl)
  | .arr a, .arr b =>
    match decEqItems a b with
    | isTrue h => isTrue (by rw [h])
    | isFalse h => isFalse (by intro e; cases e; exact h rfl)
  | .null, .bool _ | .null, .num _ | .null, .str _ | .null, .arr _ | .null, .obj
  | .bool _, .null | .bool _, .num _ | .bool _, .str _ | .bool _, .arr _ | .bool _, .obj
  | .num _, .null | .num _, .bool _ | .num _, .str _ | .num _, .arr _ | .num _, .obj
  | .str _, .null | .str _, .bool _ | .str _, .num _ | .str _, .arr _ | .str _, .obj
  | .arr _, .null | .arr _, .bool _ | .arr _, .num _ | .arr _, .str _ | .arr _, .obj
  | .obj, .null | .obj, .bool _ | .obj, .num _ | .obj, .str _ | .obj, .arr _ =>
    isFalse (by intro e; cases e)
where
  /-- Equality of item lists. -/
  decEqItems : (a b : List JsVal) → Decidable (a = b)
  | [], [] => isTrue rfl
  | [], _ :: _ | _ :: _, [] => isFalse (by intro e; cases e)
  | x :: xs, y :: ys =>
    match JsVal.decEq x y, decEqItems xs ys with
    | isTrue h1, isTrue h2 => isTrue (by rw [h1, h2])
    | isFalse h1, _ => isFalse (by intro e; cases e; exact h1 rfl)
    | _, isFalse h2 => isFalse (by intro e; cases e; exact h2 rfl)

instance : DecidableEq JsVal := JsVal.decEq

/-- JavaScript truthiness of a possibly-undefined body value: arrays and objects are
truthy, the empty array included. -/
def JsVal.truthy : Option JsVal → Bool
  | none => false
  | some .null => false
  | some (.bool b) => b
  | some (.num n) => n ≠ 0
  | some (.str s) => s ≠ ""
  | some (.arr _) => true
  | some .obj => true

/-- JavaScript `String(n)` for an integer-valued number: the decimal digits when
`|n| < 10^21`, the exponent form `d.ddd…e+k` from there on (`String(1e21)` is `"1e+21"`).
Exact for `|n| ≤ 2^53`; above that the digits are those of `n` itself, the rounding of
the literal to a double is not modelled. -/
def numberToString (n : Int) : String :=
  if n.natAbs < 1000000000000000000000 then toString n
  else
    match (Nat.repr n.natAbs).toList with
    | [] => ""
    | d :: rest =>
      let frac := (rest.reverse.dropWhile (fun c => c = '0')).reverse
      (if n < 0 then "-" else "") ++ String.mk (d :: (if frac.isEmpty then [] else '.' :: frac))
        ++ "e+" ++ toString rest.length

/-- JavaScript `String(v)`: an array is its items joined by commas
(`Array.prototype.toString`), `null` items giving the empty string. -/
def JsVal.toStr : JsVal → String
  | .null => "null"
  | .bool b => toString b
  | .num n => numberToString n
  | .str s => s
  | .arr items => ",".intercalate (joinItems items)
  | .obj => "[object Object]"
where
  /-- The texts that `Array.prototype.join` puts between the commas. -/
  joinItems : List JsVal → List String
  | [] => []
  | v :: rest => (match v with | .null => "" | _ => JsVal.toStr v) :: joinItems rest

/-! ## `parseInt` and `Date` -/

/-- Characters skipped by `parseInt` before the sign (ECMAScript `StrWhiteSpaceChar`):
tab, LF, VT, FF, CR, space, NBSP, LS, PS, BOM, and the other space separators
U+1680, U+2000 to U+200A, U+202F, U+205F, U+3000. -/
def isStrWhiteSpace (c : Char) : Bool :=
  c.toNat ∈ [9, 10, 11, 12, 13, 32, 160, 8232, 8233, 65279, 5760, 8239, 8287, 12288]
    || (8192 ≤ c.toNat && c.toNat ≤ 8202)

/-- Value of `parseInt(s, 10)`: leading white space, an optional sign, then the longest
run of decimal digits; `none` (NaN) when there is no digit. The result is exact
(the rounding of integers above 2^53 to doubles is not modelled). -/
def parseInt (s : String) : Option Int :=
  let cs := s.toList.dropWhile isStrWhiteSpace
  let neg := cs.head? = some '-'
  let cs := if cs.head? = some '-' ∨ cs.head? = some '+' then cs.tail else cs
  let ds := cs.takeWhile Char.isDigit
  if ds.isEmpty then none
  else
    let n : Int := ds.foldl (fun a c => 10 * a + ((c.toNat : Int) - 48)) 0
    some (if neg then -n else n)

/-- Value of `parseInt(v, 10)` on a possibly-undefined query value
(`parseInt(undefined)` is NaN). -/
def parseIntQ (v : Option QVal) : Option Int :=
  match v with
  | none => none
  | some q => parseInt q.toStr

/-- The wall clock of the server process. -/
structure Clock where
  /-- Time value of `new Date()`, in milliseconds since the epoch. -/
  now : Int
  /-- Local time minus UTC, in milliseconds. -/
  offset : Int
  deriving DecidableEq, Repr

/-- Milliseconds in a day. -/
def msPerDay : Int := 86400000

/-- Days from 1970-01-01 to the civil date `y`-`m`-`d` of the proleptic Gregorian
calendar, `m` in 1..12 (the day-number part of ECMAScript `MakeDay`). -/
def daysFromCivil (y m d : Int) : Int :=
  let y' := if m ≤ 2 then y - 1 else y
  let era := y' / 400
  let yoe := y' - era * 400
  let mp := (m + 9) % 12
  let doy := (153 * mp + 2) / 5 + d - 1
  let doe := yoe * 365 + yoe / 4 - yoe / 100 + doy
  era * 146097 + doe - 719468

/-- Civil year of the day number `z` (ECMAScript `YearFromTime` on days). -/
def yearFromDays (z : Int) : Int :=
  let z := z + 719468
  let era := z / 146097
  let doe := z - era * 146097
  let yoe := (doe - doe / 1460 + doe / 36524 - doe / 146096) / 365
  let doy := doe - (365 * yoe + yoe / 4 - yoe / 100)
  let mp := (5 * doy + 2) / 153
  let m := if mp < 10 then mp + 3 else mp - 9
  yoe + era * 400 + (if m ≤ 2 then 1 else 0)

/-- ECMAScript `MakeDay(year, month, date)` with a zero-based month that may lie
outside 0..11 and a day of month that may lie outside the month. -/
def makeDay (year month date : Int) : Int :=
  let ym := year + month / 12
  let mn := month % 12
  daysFromCivil ym (mn + 1) 1 + date - 1

/-- ECMAScript `MakeTime(hour, min, sec, ms)`. -/
def makeTime (h mi s ms : Int) : Int :=
  h * 3600000 + mi * 60000 + s * 1000 + ms

/-- ECMAScript `TimeClip`. -/
def timeClip (t : Int) : Option Int :=
  if t.natAbs ≤ 8640000000000000 then some t else none

/-- Value of `new Date(year, month, date, hours, minutes, seconds, ms)` in local time.
A NaN argument gives `Invalid Date`; a year in 0..99 means 1900 + year. -/
def newDate (clk : Clock) (year month : Option Int) (date h mi s ms : Int) : Option Int :=
  match year, month with
  | some y, some m =>
    let yr := if 0 ≤ y ∧ y ≤ 99 then 1900 + y else y
    timeClip (makeDay yr m date * msPerDay + makeTime h mi s ms - clk.offset)
  | _, _ => none

/-- Value of `new Date().getFullYear()`. -/
def getFullYear (clk : Clock) : Int :=
  yearFromDays ((clk.now + clk.offset) / msPerDay)

/-- Time value after `d.setHours(h, mi, s, ms)` on a date with time value `t`:
the local calendar day of `t` is kept, the time within the day is replaced. -/
def setHours (clk : Clock) (t h mi s ms : Int) : Int :=
  ((t + clk.offset) / msPerDay) * msPerDay + makeTime h mi s ms - clk.offset

/-! ## `ApiFeatures` (src/utils/apiFeatures.js) -/

/-- A condition on one column of a Sequelize `where` object. -/
inductive Cond where
  /-- Plain value, `key: value`: equality. -/
  | eq (v : QVal)
  /-- Range `{ [Op.between]: [lo, hi] }` on two `Date` objects. -/
  | between (lo hi : Option Int)
  deriving DecidableEq, Repr

/-- The options object handed to `findAndCountAll`. -/
structure QueryObj where
  whereObj : Obj Cond
  order : Option (List (QVal × String))
  limit : Option Int
  offset : Option Int
  deriving DecidableEq, Repr

/-- State of an `ApiFeatures` instance (the model reference is the table itself). -/
structure ApiFeatures where
  queryString : Obj QVal
  queryObj : QueryObj
  page : Option Int
  limit : Option Int
  deriving DecidableEq, Repr

/-- The constructor: `this.queryObj = { where: { ...initialWhere } }`. -/
def ApiFeatures.new (queryString : Obj QVal) (initialWhere : Obj Cond) : ApiFeatures :=
  { queryString := queryString
    queryObj := { whereObj := initialWhere, order := none, limit := none, offset := none }
    page := none
    limit := none }

/-- Keys removed from the copy of the query string in `filter()`. -/
def excludedFields : List String := ["page", "sort", "limit", "fields", "order", "sortBy"]

/-- Method `filter()`: copy the query string, delete the excluded keys, then assign every
remaining key into `this.queryObj.where`. -/
def ApiFeatures.filter (f : ApiFeatures) : ApiFeatures :=
  let queryObj := excludedFields.foldl (fun o el => Obj.delete o el) f.queryString
  let whereObj := queryObj.foldl (fun w kv => Obj.set w kv.1 (Cond.eq kv.2)) f.queryObj.whereObj
  { f with queryObj := { f.queryObj with whereObj := whereObj } }

/-- Method `sort()`. -/
def ApiFeatures.sort (f : ApiFeatures) : ApiFeatures :=
  match f.queryString.get "sortBy" with
  | some sortBy =>
    if QVal.truthy (some sortBy) then
      let order := if f.queryString.get "order" = some (QVal.str "asc") then "ASC" else "DESC"
      { f with queryObj := { f.queryObj with order := some [(sortBy, order)] } }
    else
      { f with queryObj := { f.queryObj with order := some [(QVal.str "createdAt", "DESC")] } }
  | none =>
    { f with queryObj := { f.queryObj with order := some [(QVal.str "createdAt", "DESC")] } }

/-- JavaScript `x || d` on a number that may be NaN: NaN and 0 are falsy. -/
def orDefault (x : Option Int) (d : Int) : Int :=
  match x with
  | some n => if n = 0 then d else n
  | none => d

/-- Method `paginate()`. -/
def ApiFeatures.paginate (f : ApiFeatures) : ApiFeatures :=
  let page := orDefault (parseIntQ (f.queryString.get "page")) 1
  let limit := orDefault (parseIntQ (f.queryString.get "limit")) 10
  let offset := (page - 1) * limit
  { f with
    queryObj := { f.queryObj with limit := some limit, offset := some offset }
    page := some page
    limit := some limit }

/-! ## `getFacturas`: the query it builds (src/controllers/facturas.controller.js) -/

/-- The `ApiFeatures` instance on which `getFacturas` calls `execute()`:
the query is split into `year`, `month` and the rest, the base restriction is
the caller's `userId` plus the due-date window when `year` or `month` is given,
and the rest goes through `filter().sort().paginate()`. -/
def getFacturasFeatures (clk : Clock) (userId : String) (query : Obj QVal) : ApiFeatures :=
  let year := query.get "year"
  let month := query.get "month"
  let otherQuery := (query.delete "year").delete "month"
  let initialWhere : Obj Cond := [("userId", Cond.eq (QVal.str userId))]
  let initialWhere :=
    if QVal.truthy year || QVal.truthy month then
      let filterYear := if QVal.truthy year then parseIntQ year else some (getFullYear clk)
      if QVal.truthy month then
        let filterMonth := parseIntQ month
        let startDate := newDate clk filterYear (filterMonth.map (· - 1)) 1 0 0 0 0
        let endDate := newDate clk filterYear filterMonth 0 23 59 59 999
        Obj.set initialWhere "fecha_de_vencimiento" (Cond.between startDate endDate)
      else
        let startDate := newDate clk filterYear (some 0) 1 0 0 0 0
        let endDate := newDate clk filterYear (some 11) 31 23 59 59 999
        Obj.set initialWhere "fecha_de_vencimiento" (Cond.between startDate endDate)
    else initialWhere
  ((ApiFeatures.new otherQuery initialWhere).filter.sort).paginate

/-- The `where` restriction that `getFacturas` hands to `findAndCountAll`. -/
def getFacturasWhere (clk : Clock) (userId : String) (query : Obj QVal) : Obj Cond :=
  (getFacturasFeatures clk userId query).queryObj.whereObj

/-! ## Request validation (src/middlewares/facturas.validator.js) -/

/-- Library behaviour that the embedding takes as given: the ISO-8601 test of
validator.js and the conversions the `Factura` model applies to supplied raw values. -/
structure Lib where
  /-- The test `isISO8601` of validator.js on a string. -/
  isISO8601 : String → Bool
  /-- Time value the `DATE` type and the `isDate` rule accept for a raw value, if any. -/
  toDate : JsVal → Option Int
  /-- Amount in hundredths that `DECIMAL(10, 2)` and the `isDecimal` rule accept, if any. -/
  toDecimal : JsVal → Option Int
  /-- Text the `STRING` type accepts for a raw value, if any. -/
  toLabel : JsVal → Option String

/-- One entry of `validationResult(req).array()`. -/
structure FieldError where
  path : String
  msg : String
  deriving DecidableEq, Repr

/-- The string on which express-validator runs a standard validator on one value (its
`toString` helper): a non-empty array is read through its first item, and then
`undefined` and `null` become the empty string, an array or object its `toString()`,
another scalar `String(value)`. -/
def stringify : Option JsVal → String
  | none => ""
  | some (.arr (first :: _)) => shallow first
  | some v => shallow v
where
  /-- The helper called on the first item: no further look into arrays. -/
  shallow : JsVal → String
  | .null => ""
  | v => v.toStr

/-- The test `isNumeric` of validator.js: the pattern `^[+-]?([0-9]*[.])?[0-9]+$`. -/
def isNumeric (s : String) : Bool :=
  let cs := s.toList
  let cs := if cs.head? = some '-' ∨ cs.head? = some '+' then cs.tail else cs
  let whole := cs.takeWhile Char.isDigit
  match cs.dropWhile Char.isDigit with
  | [] => !whole.isEmpty
  | c :: frac => c = '.' && !frac.isEmpty && frac.all Char.isDigit

/-- The values accepted by `isIn([...])` in both update validators, which are also
the values of the model's `ENUM`. -/
def statusValues : List String := ["pendiente", "pagada", "vencida", "anulada"]

/-- One chain `body(field)[.optional()].<test>().withMessage(msg)`: with `.optional()` an
undefined field is skipped; otherwise the test runs on the stringified value, and when
the value is an array it runs on each item in turn (on none for the empty array), every
failing item adding an error. -/
def checkField (body : Obj JsVal) (field : String) (isOptional : Bool) (test : String → Bool)
    (msg : String) : List FieldError :=
  match body.get field with
  | none => if isOptional || test (stringify none) then [] else [⟨field, msg⟩]
  | some (.arr items) =>
    items.flatMap (fun item => if test (stringify (some item)) then [] else [⟨field, msg⟩])
  | some v => if test (stringify (some v)) then [] else [⟨field, msg⟩]

/-- The chain list `createFacturaValidator`. -/
def createFacturaValidator (lib : Lib) (body : Obj JsVal) : List FieldError :=
  checkField body "factura" false (fun s => s ≠ "") "Factura identifier is required"
    ++ checkField body "total" false isNumeric "Total must be a number"
    ++ checkField body "fecha_de_vencimiento" false lib.isISO8601 "Must be a valid date"

/-- The chain list `updateFacturaStatusValidator`. -/
def updateFacturaStatusValidator (body : Obj JsVal) : List FieldError :=
  checkField body "status" false (fun s => s ∈ statusValues)
    "Status must be pendiente, pagada, vencida, or anulada"

/-- The chain list `updateFacturaValidator`. -/
def updateFacturaValidator (lib : Lib) (body : Obj JsVal) : List FieldError :=
  checkField body "factura" true (fun s => s ≠ "") "Factura identifier must not be empty"
    ++ checkField body "total" true isNumeric "Total must be a number"
    ++ checkField body "fecha_de_vencimiento" true lib.isISO8601 "Must be a valid date"
    ++ checkField body "status" true (fun s => s ∈ statusValues) "Invalid status"

/-! ## The `facturas` table (src/models/factura.model.js) -/

/-- A row of the `facturas` table. `total` is the `DECIMAL(10, 2)` amount in hundredths,
dates are time values, `deletedAt` is the paranoid soft-delete marker. -/
structure Factura where
  id : String
  factura : String
  total : Int
  fecha_de_pago : Option Int
  fecha_de_vencimiento : Int
  status : String
  userId : String
  deletedAt : Option Int
  deriving DecidableEq, Repr

/-- The table: its rows, soft-deleted ones included. -/
abbrev Table := List Factura

/-- Query `Factura.findOne({ where: { id, userId } })` on the paranoid model: the first row
with that id and owner that is not soft-deleted. -/
def Factura.findOne (t : Table) (id userId : String) : Option Factura :=
  t.find? (fun r => decide (r.deletedAt = none ∧ r.id = id ∧ r.userId = userId))

/-- Instance method `save()`: write the instance back to the row with its primary key. -/
def Factura.save (t : Table) (f : Factura) : Table :=
  t.map (fun r => if r.id = f.id then f else r)

/-- Instance method `destroy()` on the paranoid model: the row is kept and its
`deletedAt` is set. -/
def Factura.destroy (clk : Clock) (t : Table) (f : Factura) : Table :=
  t.map (fun r => if r.id = f.id then { r with deletedAt := some clk.now } else r)

/-- Bulk `Factura.update(values, { where })` on the paranoid model: every row that is not
soft-deleted and satisfies `where` gets `values`; the result carries the affected count. -/
def Factura.update (t : Table) (values : Factura → Factura) (whr : Factura → Bool) :
    Nat × Table :=
  ((t.filter (fun r => decide (r.deletedAt = none) && whr r)).length,
   t.map (fun r => if decide (r.deletedAt = none) && whr r then values r else r))

/-- Aggregate `Factura.sum("total", { where })` on the paranoid model: the sum of `total`
over the rows that are not soft-deleted and satisfy `where`; `none` (SQL `NULL`) when
there is no such row. Amounts are exact hundredths, not floating-point numbers. -/
def Factura.sum (t : Table) (whr : Factura → Bool) : Option Int :=
  let rows := t.filter (fun r => decide (r.deletedAt = none) && whr r)
  if rows.isEmpty then none else some (rows.map (fun r => r.total)).sum

/-- Aggregate `Factura.count({ where })` on the paranoid model. -/
def Factura.count (t : Table) (whr : Factura → Bool) : Nat :=
  (t.filter (fun r => decide (r.deletedAt = none) && whr r)).length

/-- Assignment to `status` as validated on write by the `ENUM` column (`allowNull: false`). -/
def acceptStatus (v : JsVal) : Except String String :=
  match v with
  | .str s => if s ∈ statusValues then .ok s else .error "status is not a valid choice"
  | _ => .error "status is not a valid choice"

/-- Assignment to `factura`: `STRING`, `allowNull: false`, rule `notEmpty`. -/
def acceptLabel (lib : Lib) (v : JsVal) : Except String String :=
  match lib.toLabel v with
  | some s => if s ≠ "" then .ok s else .error "Factura name/identifier cannot be empty"
  | none => .error "factura is not a valid string"

/-- Assignment to `total`: `DECIMAL(10, 2)`, `allowNull: false`, rules `isDecimal`, `min 0`. -/
def acceptTotal (lib : Lib) (v : JsVal) : Except String Int :=
  match lib.toDecimal v with
  | some c => if 0 ≤ c then .ok c else .error "Total cannot be negative"
  | none => .error "Total must be a number"

/-- Assignment to `fecha_de_vencimiento`: `DATE`, `allowNull: false`, rule `isDate`. -/
def acceptDueDate (lib : Lib) (v : JsVal) : Except String Int :=
  match lib.toDate v with
  | some d => .ok d
  | none => .error "Must be a valid date"

/-- Assignment to `fecha_de_pago`: `DATE`, `allowNull: true`. -/
def acceptPaidDate (lib : Lib) (v : JsVal) : Except String (Option Int) :=
  match v with
  | .null => .ok none
  | _ =>
    match lib.toDate v with
    | some d => .ok (some d)
    | none => .error "fecha_de_pago is not a valid date"

/-- The object literal that `createFactura` passes to `Factura.create`. -/
structure CreateValues where
  factura : Option JsVal
  total : Option JsVal
  fecha_de_pago : Option JsVal
  fecha_de_vencimiento : Option JsVal
  status : JsVal
  userId : String
  deriving DecidableEq, Repr

/-- Static `Factura.create(values)`: the values are validated against the column
declarations; on success a row with the fresh primary key `newId` is appended. -/
def Factura.create (lib : Lib) (newId : String) (t : Table) (v : CreateValues) :
    Except String (Factura × Table) := do
  let factura ← match v.factura with
    | some x => acceptLabel lib x
    | none => .error "Factura.factura cannot be null"
  let total ← match v.total with
    | some x => acceptTotal lib x
    | none => .error "Factura.total cannot be null"
  let pago ← match v.fecha_de_pago with
    | some x => acceptPaidDate lib x
    | none => .ok none
  let vencimiento ← match v.fecha_de_vencimiento with
    | some x => acceptDueDate lib x
    | none => .error "Factura.fecha_de_vencimiento cannot be null"
  let status ← acceptStatus v.status
  let row : Factura :=
    { id := newId, factura := factura, total := total, fecha_de_pago := pago,
      fecha_de_vencimiento := vencimiento, status := status, userId := v.userId,
      deletedAt := none }
  pure (row, t ++ [row])

/-! ## Request handlers (src/controllers/facturas.controller.js) -/

/-- The `data` object of the statistics response. -/
structure Stats where
  totalPagado : Int
  totalPendiente : Int
  facturasVencidas : Int
  deriving DecidableEq, Repr

/-- The JSON document of a response. -/
inductive ResBody where
  /-- Shape `{ status: "error", errors }`. -/
  | validationErrors (errors : List FieldError)
  /-- Shape `{ status: "error", message }`. -/
  | error (message : String)
  /-- Shape `{ status: "error", message, error }`. -/
  | errorDetail (message : String) (detail : String)
  /-- Shape `{ status: "success", data }`. -/
  | successData (data : Factura)
  /-- Shape `{ status: "success", message }`. -/
  | successMessage (message : String)
  /-- Shape `{ status: "success", data: { totalPagado, totalPendiente, facturasVencidas } }`. -/
  | successStats (data : Stats)
  /-- Shape `{ status: "success", data: { facturas, totalFacturas, totalPages, currentPage } }`;
  a number that is NaN or undefined is `none`. -/
  | successList (facturas : List Factura) (totalFacturas : Nat) (totalPages : Option Int)
      (currentPage : Option Int)
  deriving DecidableEq, Repr

/-- A response: HTTP status code and JSON document. -/
structure Response where
  code : Nat
  body : ResBody
  deriving DecidableEq, Repr

/-- The values `createFactura` hands to `Factura.create`: the five body fields with
`status || "pendiente"`, and the caller's id as `userId`. -/
def createFacturaValues (userId : String) (body : Obj JsVal) : CreateValues :=
  { factura := body.get "factura"
    total := body.get "total"
    fecha_de_pago := body.get "fecha_de_pago"
    fecha_de_vencimiento := body.get "fecha_de_vencimiento"
    status :=
      match body.get "status" with
      | some s => if JsVal.truthy (some s) then s else JsVal.str "pendiente"
      | none => JsVal.str "pendiente"
    userId := userId }

/-- Handler `createFactura` (POST /api/facturas). -/
def createFactura (lib : Lib) (newId : String) (t : Table) (userId : String)
    (body : Obj JsVal) : Response × Table :=
  let errors := createFacturaValidator lib body
  if errors ≠ [] then (⟨400, .validationErrors errors⟩, t)
  else
    match Factura.create lib newId t (createFacturaValues userId body) with
    | .ok (newFactura, t') => (⟨201, .successData newFactura⟩, t')
    | .error message => (⟨500, .errorDetail "Server error" message⟩, t)

/-- Handler `getFacturaById` (GET /api/facturas/:id). -/
def getFacturaById (t : Table) (userId id : String) : Response :=
  match Factura.findOne t id userId with
  | none => ⟨404, .error "Factura not found"⟩
  | some factura => ⟨200, .successData factura⟩

/-- The two conditional assignments of `updateFacturaStatus`, with the checks the
columns apply when the instance is saved. -/
def applyStatusUpdate (lib : Lib) (factura : Factura) (body : Obj JsVal) :
    Except String Factura := do
  let factura ← match body.get "status" with
    | some status => (acceptStatus status).map (fun s => { factura with status := s })
    | none => .ok factura
  let factura ← match body.get "fecha_de_pago" with
    | some pago => (acceptPaidDate lib pago).map (fun d => { factura with fecha_de_pago := d })
    | none => .ok factura
  pure factura

/-- Handler `updateFacturaStatus` (PATCH /api/facturas/:id/status). -/
def updateFacturaStatus (lib : Lib) (t : Table) (userId id : String) (body : Obj JsVal) :
    Response × Table :=
  let errors := updateFacturaStatusValidator body
  if errors ≠ [] then (⟨400, .validationErrors errors⟩, t)
  else
    match Factura.findOne t id userId with
    | none => (⟨404, .error "Factura not found"⟩, t)
    | some factura =>
      match applyStatusUpdate lib factura body with
      | .ok saved => (⟨200, .successData saved⟩, Factura.save t saved)
      | .error _ => (⟨500, .error "Server error"⟩, t)

/-- The five conditional assignments of `updateFactura`, with the checks the columns
apply when the instance is saved. -/
def applyUpdate (lib : Lib) (factura : Factura) (body : Obj JsVal) :
    Except String Factura := do
  let factura ← match body.get "factura" with
    | some name => (acceptLabel lib name).map (fun s => { factura with factura := s })
    | none => .ok factura
  let factura ← match body.get "total" with
    | some total => (acceptTotal lib total).map (fun c => { factura with total := c })
    | none => .ok factura
  let factura ← match body.get "fecha_de_vencimiento" with
    | some d => (acceptDueDate lib d).map (fun x => { factura with fecha_de_vencimiento := x })
    | none => .ok factura
  let factura ← match body.get "status" with
    | some status => (acceptStatus status).map (fun s => { factura with status := s })
    | none => .ok factura
  let factura ← match body.get "fecha_de_pago" with
    | some pago => (acceptPaidDate lib pago).map (fun d => { factura with fecha_de_pago := d })
    | none => .ok factura
  pure factura

/-- Handler `updateFactura` (PUT /api/facturas/:id). -/
def updateFactura (lib : Lib) (t : Table) (userId id : String) (body : Obj JsVal) :
    Response × Table :=
  let errors := updateFacturaValidator lib body
  if errors ≠ [] then (⟨400, .validationErrors errors⟩, t)
  else
    match Factura.findOne t id userId with
    | none => (⟨404, .error "Factura not found"⟩, t)
    | some factura =>
      match applyUpdate lib factura body with
      | .ok saved => (⟨200, .successData saved⟩, Factura.save t saved)
      | .error _ => (⟨500, .error "Server error"⟩, t)

/-- Handler `deleteFactura` (DELETE /api/facturas/:id). -/
def deleteFactura (clk : Clock) (t : Table) (userId id : String) : Response × Table :=
  match Factura.findOne t id userId with
  | none => (⟨404, .error "Factura not found"⟩, t)
  | some factura => (⟨200, .successMessage "Factura deleted successfully"⟩,
      Factura.destroy clk t factura)

/-- Handler `getFacturasStats` (GET /api/facturas/stats): two sums and a count, each
scoped to the caller and a status, each followed by `|| 0`. -/
def getFacturasStats (t : Table) (userId : String) : Response :=
  let totalPagado :=
    Factura.sum t (fun r => decide (r.userId = userId) && decide (r.status = "pagada"))
  let totalPendiente :=
    Factura.sum t (fun r => decide (r.userId = userId) && decide (r.status = "pendiente"))
  let vencidasCount :=
    Factura.count t (fun r => decide (r.userId = userId) && decide (r.status = "vencida"))
  ⟨200, .successStats
    { totalPagado := orDefault totalPagado 0
      totalPendiente := orDefault totalPendiente 0
      facturasVencidas := orDefault (some (vencidasCount : Int)) 0 }⟩

/-! ## `execute()` and the list handler -/

/-- The database's evaluation of a query, taken as given: which rows a `where` object
selects, and how an `order` option arranges the selected rows. -/
structure Engine where
  matchesWhere : Obj Cond → Factura → Bool
  orderRows : Option (List (QVal × String)) → List Factura → List Factura

/-- Value of `Math.ceil(n / l)` on integers, `l` not zero (exact, not floating point). -/
def ceilDiv (n l : Int) : Int :=
  -(Int.fdiv (-n) l)

/-- Query `Factura.findAndCountAll(options)` on the paranoid model: `count` is the number
of rows that are not soft-deleted and satisfy `where`, whatever `limit` and `offset`;
`rows` are those rows in the requested order, after skipping `offset` rows and keeping at
most `limit`. The database refuses a negative `offset` or `limit`. -/
def Factura.findAndCountAll (e : Engine) (t : Table) (q : QueryObj) :
    Except String (Nat × List Factura) :=
  let selected := t.filter (fun r => decide (r.deletedAt = none) && e.matchesWhere q.whereObj r)
  let ordered := e.orderRows q.order selected
  if q.offset.getD 0 < 0 ∨ q.limit.getD 0 < 0 then .error "invalid LIMIT or OFFSET"
  else
    let skipped := ordered.drop (q.offset.getD 0).toNat
    let rows :=
      match q.limit with
      | some l => skipped.take l.toNat
      | none => skipped
    .ok (selected.length, rows)

/-- The object returned by `execute()`. -/
structure ExecuteResult where
  data : List Factura
  total : Nat
  totalPages : Option Int
  currentPage : Option Int
  deriving DecidableEq, Repr

/-- Method `execute()`: one `findAndCountAll`, then
`totalPages = Math.ceil(count / this.limit)` and `currentPage = this.page`. -/
def ApiFeatures.execute (e : Engine) (t : Table) (f : ApiFeatures) :
    Except String ExecuteResult :=
  match Factura.findAndCountAll e t f.queryObj with
  | .error err => .error err
  | .ok (count, rows) =>
    .ok { data := rows
          total := count
          totalPages :=
            match f.limit with
            | some l => if l = 0 then none else some (ceilDiv count l)
            | none => none
          currentPage := f.page }

/-- Handler `getFacturas` (GET /api/facturas). -/
def getFacturas (e : Engine) (clk : Clock) (t : Table) (userId : String) (query : Obj QVal) :
    Response :=
  match (getFacturasFeatures clk userId query).execute e t with
  | .ok result =>
    ⟨200, .successList result.data result.total result.totalPages result.currentPage⟩
  | .error _ => ⟨500, .error "Server error"⟩

/-! ## Authentication middleware (src/middlewares/auth.middleware.js) -/

/-- A row of the `users` table, as far as the embedded code reads it. -/
structure User where
  id : String
  email : String
  firstName : String
  deriving DecidableEq, Repr

/-- What `protect` does to the request, in the order in which it does it: a call of
`next()` after `req.user = user`, or a response `res.status(code).json(...)` with the
given message. -/
inductive AuthEffect where
  | next (user : User)
  | respond (code : Nat) (message : String)
  deriving DecidableEq, Repr

/-- The call `jwt.verify(token, secret)`: the `id` of the decoded payload (possibly
undefined), or a thrown error. The token may be undefined. -/
abbrev Verify := Option String → Except String (Option String)

/-- Query `User.findByPk(id)`: null for an undefined id or when no user has the id. -/
def User.findByPk (users : List User) (id : Option String) : Option User :=
  match id with
  | none => none
  | some i => users.find? (fun u => decide (u.id = i))

/-- JavaScript `s.startsWith(p)`. -/
def startsWith (s p : String) : Bool :=
  p.toList.isPrefixOf s.toList

/-- JavaScript `s.split(sep)` for a one-character separator, on the characters of `s`. -/
def splitChars (sep : Char) : List Char → List String
  | [] => [""]
  | c :: cs =>
    if c = sep then "" :: splitChars sep cs
    else
      match splitChars sep cs with
      | [] => [String.mk [c]]
      | piece :: pieces => String.mk (c :: piece.toList) :: pieces

/-- Middleware `protect`, on the value of the `Authorization` header. Inside the `if`
the token is the second piece of the header split at spaces; verification and the user
lookup run inside `try`, whose `catch` answers 401; after the `if`, a falsy token is
answered 401 "no token". -/
def protect (verify : Verify) (users : List User) (authorization : Option String) :
    List AuthEffect :=
  match authorization with
  | some header =>
    if header ≠ "" ∧ startsWith header "Bearer" then
      let token : Option String := (splitChars ' ' header.toList)[1]?
      match verify token with
      | .error _ => [.respond 401 "Not authorized, token failed"]
      | .ok decodedId =>
        match User.findByPk users decodedId with
        | none => [.respond 401 "Not authorized, user not found"]
        | some user =>
          if token = none ∨ token = some "" then
            [.next user, .respond 401 "Not authorized, no token"]
          else [.next user]
    else [.respond 401 "Not authorized, no token"]
  | none => [.respond 401 "Not authorized, no token"]

/-! ## Scheduled jobs (src/services/cron.service.js, src/services/email.service.js) -/

/-- The date built by `new Date()` followed by `setHours(0, 0, 0, 0)`: the local
`today` of `checkOverdueInvoices` and `startOfToday` of `checkDueTodayInvoices`. -/
def startOfToday (clk : Clock) : Int :=
  setHours clk clk.now 0 0 0 0

/-- The date built by `new Date()` followed by `setHours(23, 59, 59, 999)`. -/
def endOfToday (clk : Clock) : Int :=
  setHours clk clk.now 23 59 59 999

/-- Job `checkOverdueInvoices`: `today` is built by `new Date()` and `setHours(0, 0, 0, 0)`;
one bulk update sets `status` to "vencida" where `status` is "pendiente" and
`fecha_de_vencimiento` is below `today`. The result is the store's affected count
(the `updatedCount` that the job logs) and the table afterwards. -/
def checkOverdueInvoices (clk : Clock) (t : Table) : Nat × Table :=
  let today := startOfToday clk
  Factura.update t (fun r => { r with status := "vencida" })
    (fun r => decide (r.status = "pendiente") && decide (r.fecha_de_vencimiento < today))

/-- An association registered on a model: `asName` is the `as` option, or the target
model's name when the option is not given; `isAliased` records whether it was given. -/
structure Association where
  target : String
  foreignKey : String
  asName : String
  isAliased : Bool
  deriving DecidableEq, Repr

/-- The associations of `Factura`, from `Factura.associate`:
`belongsTo(models.User, { foreignKey: "userId", as: "user" })`. -/
def facturaAssociations : List Association :=
  [{ target := "User", foreignKey := "userId", asName := "user", isAliased := true }]

/-- One entry of a query's `include` option: the model and the `as` alias, if given. -/
structure IncludeOpt where
  model : String
  asName : Option String
  deriving DecidableEq, Repr

/-- Sequelize's `verifyAssociationAlias`: an alias given in the include must be the
association's; without one the association must have been declared without alias. -/
def verifyAssociationAlias (a : Association) (asName : Option String) : Bool :=
  match asName with
  | some x => a.asName = x
  | none => !a.isAliased

/-- Sequelize's resolution of an `include` entry against the associations of the queried
model: the association to the target model that the alias of the entry verifies;
an eager-loading error when the model is not associated or no association verifies. -/
def resolveInclude (assocs : List Association) (inc : IncludeOpt) :
    Except String Association :=
  let associations := assocs.filter (fun a => a.target = inc.model)
  if associations = [] then .error (inc.model ++ " is not associated to Factura!")
  else
    match associations.find? (fun a => verifyAssociationAlias a inc.asName) with
    | some a => .ok a
    | none => .error (inc.model ++ " is associated to Factura using an alias.")

/-- An instance returned by a query with eager loading: the row, and the loaded
instances under their property names. -/
structure Loaded where
  row : Factura
  included : Obj (Option User)
  deriving DecidableEq, Repr

/-- Query `Factura.findAll({ where, include: [inc] })` on the paranoid model: the include
is resolved first; each row that is not soft-deleted and satisfies `where` comes back
with its owner (a left join on `userId`) under the name of the association. -/
def Factura.findAll (assocs : List Association) (t : Table) (users : List User)
    (whr : Factura → Bool) (inc : IncludeOpt) : Except String (List Loaded) :=
  match resolveInclude assocs inc with
  | .error e => .error e
  | .ok a =>
    .ok ((t.filter (fun r => decide (r.deletedAt = none) && whr r)).map (fun r =>
      { row := r
        included := [(a.asName, users.find? (fun u => decide (u.id = r.userId)))] }))

/-- The message handed to the mail transport: recipient, and the invoice label and
amount that the subject and the text interpolate. -/
structure Mail where
  recipient : String
  factura : String
  total : Int
  deriving DecidableEq, Repr

/-- The mail transport `transporter.sendMail`: it may reject with an error message. -/
abbrev Transport := Mail → Except String Unit

/-- Method `EmailService.sendInvoiceDueTodayEmail`: one call of the transport inside
`try`; `true` when it resolves, `false` when it rejects. The second component is the
outbox: every message handed to the transport so far. -/
def sendInvoiceDueTodayEmail (tr : Transport) (userEmail : String) (invoiceDetails : Factura)
    (outbox : List Mail) : Except String Bool × List Mail :=
  let mailOptions : Mail :=
    { recipient := userEmail, factura := invoiceDetails.factura, total := invoiceDetails.total }
  match tr mailOptions with
  | .ok _ => (.ok true, outbox ++ [mailOptions])
  | .error _ => (.ok false, outbox ++ [mailOptions])

/-- The `for ... of` loop of `checkDueTodayInvoices`: for each instance read
`invoice.User?.email` and, when it is truthy, await the email service. An exception
leaving the service would end the loop. -/
def notifyLoop (tr : Transport) : List Loaded → List Mail → Except String Unit × List Mail
  | [], outbox => (.ok (), outbox)
  | invoice :: rest, outbox =>
    match invoice.included.get "User" with
    | some (some user) =>
      if user.email ≠ "" then
        match sendInvoiceDueTodayEmail tr user.email invoice.row outbox with
        | (.ok _, outbox') => notifyLoop tr rest outbox'
        | (.error e, outbox') => (.error e, outbox')
      else notifyLoop tr rest outbox
    | _ => notifyLoop tr rest outbox

/-- The `where` predicate of `checkDueTodayInvoices`. -/
def dueTodayWhere (clk : Clock) (r : Factura) : Bool :=
  decide (r.status = "pendiente") && decide (startOfToday clk ≤ r.fecha_de_vencimiento)
    && decide (r.fecha_de_vencimiento ≤ endOfToday clk)

/-- Job `checkDueTodayInvoices`, with the associations of `Factura` as a parameter:
the query with `include: [{ model: User }]`, then the loop; an exception from either
is caught and logged. The result is the outbox: the messages handed to the transport.
(Both `new Date()` calls are taken at the same instant.) -/
def checkDueTodayInvoicesWith (assocs : List Association) (tr : Transport) (clk : Clock)
    (t : Table) (users : List User) : List Mail :=
  match Factura.findAll assocs t users (dueTodayWhere clk)
      { model := "User", asName := none } with
  | .error _ => []
  | .ok invoicesDueToday =>
    if invoicesDueToday.length > 0 then (notifyLoop tr invoicesDueToday []).2 else []

/-- Job `checkDueTodayInvoices` on the model as `Factura.associate` declares it. -/
def checkDueTodayInvoices (tr : Transport) (clk : Clock) (t : Table) (users : List User) :
    List Mail :=
  checkDueTodayInvoicesWith facturaAssociations tr clk t users

/-! ## The scheduler and its two callbacks (`CronService.start`) -/

/-- The two jobs that `start()` schedules. -/
inductive JobKind where
  | overdue
  | dueToday
  deriving DecidableEq, Repr

/-- One firing of a scheduled job: which job, the clock at that moment, and the error
with which the store rejects the job's query when the store fails during that run. -/
structure Firing where
  job : JobKind
  clk : Clock
  storeFault : Option String
  deriving DecidableEq, Repr

/-- What the jobs act on: the two tables, the messages handed to the mail transport so
far, and the lines written to the log. -/
structure World where
  table : Table
  users : List User
  outbox : List Mail
  log : List String
  deriving DecidableEq, Repr

/-- Method `checkOverdueInvoices` against a store that may fail: the method has no
`try`, so a rejected `Factura.update` rejects the method; otherwise the table is
updated and one line is logged. -/
def checkOverdueInvoicesRun (fault : Option String) (clk : Clock) (w : World) :
    Except String World :=
  match fault with
  | some err => .error err
  | none =>
    let result := checkOverdueInvoices clk w.table
    let line :=
      if result.1 > 0 then
        "Cron Job: Successfully marked " ++ toString result.1 ++ " invoices as OVERDUE (vencida)."
      else "Cron Job: No new overdue invoices found."
    .ok { w with table := result.2, log := w.log ++ [line] }

/-- Method `checkDueTodayInvoices` against a store that may fail: the query and the loop
run inside `try`; a rejected `Factura.findAll` is logged by the `catch`. -/
def checkDueTodayInvoicesRun (tr : Transport) (fault : Option String) (clk : Clock)
    (w : World) : Except String World :=
  match fault with
  | some err => .ok { w with log := w.log ++ ["Cron Job Check Due Today Error: " ++ err] }
  | none =>
    .ok { w with outbox := w.outbox ++ checkDueTodayInvoices tr clk w.table w.users }

/-- The callback that `start()` schedules for a job: an info line, then the job inside
`try`, whose `catch` logs "Cron Job Error". -/
def jobCallback (tr : Transport) (f : Firing) (w : World) : Except String World :=
  match f.job with
  | .overdue =>
    let w1 := { w with log := w.log ++ ["Running cron job: Check for overdue invoices..."] }
    match checkOverdueInvoicesRun f.storeFault f.clk w1 with
    | .ok w2 => .ok w2
    | .error err => .ok { w1 with log := w1.log ++ ["Cron Job Error: " ++ err] }
  | .dueToday =>
    let w1 := { w with log := w.log ++ ["Running cron job: Check for invoices due today..."] }
    match checkDueTodayInvoicesRun tr f.storeFault f.clk w1 with
    | .ok w2 => .ok w2
    | .error err => .ok { w1 with log := w1.log ++ ["Cron Job Error: " ++ err] }

/-- The scheduler over a sequence of firings: each callback runs in turn; an error that
left a callback would end the run there. -/
def runFirings (tr : Transport) : List Firing → World → Except String World
  | [], w => .ok w
  | f :: rest, w =>
    match jobCallback tr f w with
    | .ok w2 => runFirings tr rest w2
    | .error err => .error err

/-! ## Vocabulary of the statements -/

/-- The rows a query selects, in the order the database gives them: not soft-deleted,
satisfying `where`, arranged by `order`. -/
def selectedRows (e : Engine) (t : Table) (q : QueryObj) : List Factura :=
  e.orderRows q.order
    (t.filter (fun r => decide (r.deletedAt = none) && e.matchesWhere q.whereObj r))

/-- The instance that `paginate()` leaves when the page parameter evaluates to `p` and the
limit parameter to `l`. -/
def paged (f : ApiFeatures) (p l : Int) : ApiFeatures :=
  { f with
    queryObj := { f.queryObj with limit := some l, offset := some ((p - 1) * l) }
    page := some p
    limit := some l }

/-- The rows of page `p` (counted from 1) of a list cut into pages of `l` rows. -/
def pageRows (rows : List Factura) (p l : Nat) : List Factura :=
  (rows.drop ((p - 1) * l)).take l

/-- The base restriction that `getFacturas` passes to `ApiFeatures`: the caller's `userId`
and, when `year` or `month` is truthy, the due-date window. -/
def initialWhereOf (clk : Clock) (userId : String) (query : Obj QVal) : Obj Cond :=
  let year := query.get "year"
  let month := query.get "month"
  let initialWhere : Obj Cond := [("userId", Cond.eq (QVal.str userId))]
  if QVal.truthy year || QVal.truthy month then
    let filterYear := if QVal.truthy year then parseIntQ year else some (getFullYear clk)
    if QVal.truthy month then
      let filterMonth := parseIntQ month
      let startDate := newDate clk filterYear (filterMonth.map (· - 1)) 1 0 0 0 0
      let endDate := newDate clk filterYear filterMonth 0 23 59 59 999
      Obj.set initialWhere "fecha_de_vencimiento" (Cond.between startDate endDate)
    else
      let startDate := newDate clk filterYear (some 0) 1 0 0 0 0
      let endDate := newDate clk filterYear (some 11) 31 23 59 59 999
      Obj.set initialWhere "fecha_de_vencimiento" (Cond.between startDate endDate)
  else initialWhere

/-- The leap-year rule of the Gregorian calendar. -/
def isLeapYear (y : Int) : Bool :=
  decide (y % 4 = 0) && (decide (y % 100 ≠ 0) || decide (y % 400 = 0))

/-- Number of days of month `m` (1..12) of year `y`. -/
def daysInMonth (y m : Int) : Int :=
  if m = 2 then (if isLeapYear y then 29 else 28)
  else if m = 4 ∨ m = 6 ∨ m = 9 ∨ m = 11 then 30
  else 31

/-- The instant at which the server's local calendar and clock read the civil date
`y`-`m`-`d` and the time `h`:`mi`:`s`.`ms`. -/
def localInstant (clk : Clock) (y m d h mi s ms : Int) : Int :=
  daysFromCivil y m d * msPerDay + makeTime h mi s ms - clk.offset

/-- The due-date window of month `m` of year `y`: from day 1 at 00:00:00.000 to the last
day of the month at 23:59:59.999, as `Date` objects (clipped to the range of `Date`). -/
def monthWindow (clk : Clock) (y m : Int) : Cond :=
  Cond.between (timeClip (localInstant clk y m 1 0 0 0 0))
    (timeClip (localInstant clk y m (daysInMonth y m) 23 59 59 999))

/-- The due-date window of year `y`: from 1 January 00:00:00.000 to 31 December
23:59:59.999. -/
def yearWindow (clk : Clock) (y : Int) : Cond :=
  Cond.between (timeClip (localInstant clk y 1 1 0 0 0 0))
    (timeClip (localInstant clk y 12 31 23 59 59 999))


/-- Number of the local calendar day that contains the instant `x`. -/
def localDay (clk : Clock) (x : Int) : Int :=
  (x + clk.offset) / msPerDay

/-- The row predicate of overdue promotion: not soft-deleted, pending, due before `today`. -/
def overdueAt (today : Int) (r : Factura) : Bool :=
  decide (r.deletedAt = none)
    && (decide (r.status = "pendiente") && decide (r.fecha_de_vencimiento < today))

/-- The `where` predicate of `checkOverdueInvoices`: pending and due before `today`. -/
def overdueWhere (clk : Clock) (r : Factura) : Bool :=
  decide (r.status = "pendiente") && decide (r.fecha_de_vencimiento < startOfToday clk)

/-- Number of positions at which two tables differ. -/
def changedCount (old new : Table) : Nat :=
  ((old.zip new).filter (fun p => decide (p.1 ≠ p.2))).length

/-- The message the loop of `checkDueTodayInvoices` owes for one loaded instance: present
exactly when `invoice.User?.email` is truthy. -/
def mailFor (invoice : Loaded) : Option Mail :=
  match invoice.included.get "User" with
  | some (some user) =>
    if user.email ≠ "" then
      some { recipient := user.email, factura := invoice.row.factura, total := invoice.row.total }
    else none
  | _ => none

/-- The records of an owner in a given status: the rows that are not soft-deleted, belong
to `userId` and carry `status`. -/
def recordsOf (t : Table) (userId status : String) : List Factura :=
  t.filter (fun r =>
    decide (r.deletedAt = none) && (decide (r.userId = userId) && decide (r.status = status)))

/-! ## Sample data for concrete evaluations -/

/-- The date-only form `YYYY-MM-DD`, one of the forms `isISO8601` accepts. -/
def isDateOnly (s : String) : Bool :=
  match s.toList with
  | [y1, y2, y3, y4, d1, m1, m2, d2, a1, a2] =>
    [y1, y2, y3, y4, m1, m2, a1, a2].all Char.isDigit && d1 = '-' && d2 = '-'
  | _ => false

/-- Time value of a date-only string: midnight UTC of that civil date. -/
def dateOnlyValue (s : String) : Option Int :=
  if isDateOnly s then
    match parseInt (s.extract ⟨0⟩ ⟨4⟩), parseInt (s.extract ⟨5⟩ ⟨7⟩), parseInt (s.extract ⟨8⟩ ⟨10⟩) with
    | some y, some m, some d => some (daysFromCivil y m d * msPerDay)
    | _, _, _ => none
  else none

/-- A sample instance of `Lib`: date-only strings are the accepted dates, integers are
amounts, strings are labels. -/
def demoLib : Lib :=
  { isISO8601 := isDateOnly
    toDate := fun v => match v with
      | .str s => dateOnlyValue s
      | _ => none
    toDecimal := fun v => match v with
      | .num n => some (n * 100)
      | _ => none
    toLabel := fun v => match v with
      | .str s => some s
      | _ => none }

/-- Invoice F-001 of owner "A": amount 100.00, due 2025-01-01 (midnight UTC), pending. -/
def f001 : Factura :=
  { id := "f-1", factura := "F-001", total := 10000, fecha_de_pago := none,
    fecha_de_vencimiento := 1735689600000, status := "pendiente", userId := "A",
    deletedAt := none }

/-- The owner of `f001`. -/
def userA : User := { id := "A", email := "a@example.com", firstName := "Ana" }

/-- A clock in UTC at 2025-01-01 08:00:00. -/
def clockJan1 : Clock := { now := 1735718400000, offset := 0 }

/-- A clock in UTC at 2025-01-02 00:00:00. -/
def clockJan2 : Clock := { now := 1735776000000, offset := 0 }

/-- A clock in UTC at 2025-01-02 12:00:00. -/
def clockJan2Noon : Clock := { now := 1735819200000, offset := 0 }

/-- The association of `Factura` to `User` as it would stand if declared without alias. -/
def unaliasedAssociations : List Association :=
  [{ target := "User", foreignKey := "userId", asName := "User", isAliased := false }]

/-- A create request that carries a status outside the enumeration. -/
def createBodyFoo : Obj JsVal :=
  [("factura", .str "F-001"), ("total", .num 100),
   ("fecha_de_vencimiento", .str "2025-01-01"), ("status", .str "foo")]

/-- A create request with a negative amount and nothing else amiss. -/
def createBodyNegative : Obj JsVal :=
  [("factura", .str "F-002"), ("total", .num (-5)), ("fecha_de_vencimiento", .str "2025-01-01")]

/-- A create request whose amount is the empty array and nothing else amiss. -/
def createBodyArray : Obj JsVal :=
  [("factura", .str "F-001"), ("total", .arr []), ("fecha_de_vencimiento", .str "2025-01-01")]

/-- A well-formed create request without status. -/
def createBodyPlain : Obj JsVal :=
  [("factura", .str "F-003"), ("total", .num 250), ("fecha_de_vencimiento", .str "2025-02-01")]

/-- The row expected from `createBodyPlain` sent by caller "U" when the store draws the
key "f-3": amount 250.00, due 2025-02-01, pending. -/
def f003 : Factura :=
  { id := "f-3", factura := "F-003", total := 25000, fecha_de_pago := none,
    fecha_de_vencimiento := 1738368000000, status := "pendiente", userId := "U",
    deletedAt := none }

/-- Invoice F-004 of owner "A": amount 40.00, paid on 2025-01-01. -/
def f004 : Factura :=
  { id := "f-4", factura := "F-004", total := 4000, fecha_de_pago := some 1735689600000,
    fecha_de_vencimiento := 1735689600000, status := "pagada", userId := "A",
    deletedAt := none }

/-- A database that selects every row and keeps the table order. -/
def demoEngine : Engine :=
  { matchesWhere := fun _ _ => true
    orderRows := fun _ rows => rows }

/-- Twenty-three invoices of owner "A" with the keys "0" to "22". -/
def table23 : Table :=
  (List.range 23).map (fun i => { f001 with id := toString i })

/-- A clock three hours west of UTC at local midnight of 2025-01-01 (03:00 UTC). -/
def clockWestJan1 : Clock := { now := 1735700400000, offset := -10800000 }

/-- A verification that refuses a missing token and decodes any other token to the user
id it spells. -/
def demoVerify : Verify := fun token =>
  match token with
  | none => .error "jwt must be provided"
  | some tok => if tok = "" then .error "jwt must be provided" else .ok (some tok)

/-! ## Auxiliary lemmas -/

theorem digitChar_isDigit (k : Nat) (hk : k < 10) : (Nat.digitChar k).isDigit = true := by
  interval_cases k <;> decide

theorem toDigitsCore_isDigit (f : Nat) : ∀ (n : Nat) (acc : List Char),
    (∀ c ∈ acc, c.isDigit = true) → ∀ c ∈ Nat.toDigitsCore 10 f n acc, c.isDigit = true := by
  induction f with
  | zero =>
    intro n acc h c hc
    exact h c (by simpa [Nat.toDigitsCore] using hc)
  | succ f ih =>
    intro n acc h c hc
    have hd : (Nat.digitChar (n % 10)).isDigit = true :=
      digitChar_isDigit _ (Nat.mod_lt _ (by decide))
    have hacc : ∀ c ∈ Nat.digitChar (n % 10) :: acc, c.isDigit = true := by
      intro c hc
      rcases List.mem_cons.mp hc with h1 | h1
      · rw [h1]; exact hd
      · exact h c h1
    simp only [Nat.toDigitsCore] at hc
    split at hc
    · exact hacc c hc
    · exact ih _ _ hacc c hc

theorem natRepr_isDigit (m : Nat) : ∀ c ∈ (Nat.repr m).data, c.isDigit = true := by
  intro c hc
  exact toDigitsCore_isDigit _ _ [] (by simp) c
    (by simpa [Nat.repr, Nat.toDigits, List.asString] using hc)

/-- The decimal form of an integer starts with a digit or a minus sign. -/
theorem intToString_head (n : Int) (c : Char) (hc : (toString n).data.head? = some c) :
    c.isDigit = true ∨ c = '-' := by
  cases n with
  | ofNat m =>
    left
    have h : toString (Int.ofNat m) = Nat.repr m := rfl
    rw [h] at hc
    exact natRepr_isDigit m c (List.mem_of_mem_head? hc)
  | negSucc m =>
    right
    have h : toString (Int.negSucc m) = "-" ++ Nat.repr (m + 1) := rfl
    rw [h] at hc
    simp [String.data_append] at hc
    exact hc.symm

/-- The text of a number starts with a digit or a minus sign. -/
theorem numberToString_head (n : Int) (c : Char)
    (hc : (numberToString n).data.head? = some c) : c.isDigit = true ∨ c = '-' := by
  unfold numberToString at hc
  split at hc
  · exact intToString_head n c hc
  · have hdig := natRepr_isDigit n.natAbs
    generalize hds : (Nat.repr n.natAbs).toList = ds at hc
    have hdig2 : ∀ x ∈ ds, x.isDigit = true := by
      intro x hx
      rw [← hds] at hx
      exact hdig x hx
    cases ds with
    | nil => simp at hc
    | cons d rest =>
      simp only at hc
      by_cases hneg : n < 0
      · right
        simp [hneg, String.data_append] at hc
        exact hc.symm
      · left
        simp [hneg, String.data_append] at hc
        rw [← hc]
        exact hdig2 d (List.mem_cons_self _ _)

/-- The validators read a string as itself. -/
theorem stringify_str (s : String) : stringify (some (JsVal.str s)) = s := rfl

/-- The validators' string form of a value that is not an array is an allowed status only
for the four status strings themselves. -/
theorem stringify_mem_statusValues (v : JsVal) (hv : ∀ items, v ≠ JsVal.arr items)
    (h : stringify (some v) ∈ statusValues) :
    ∃ s ∈ statusValues, v = JsVal.str s := by
  cases v with
  | null => exact absurd h (by decide)
  | bool b => cases b <;> exact absurd h (by decide)
  | num n =>
    exfalso
    have hd := numberToString_head n
    have hs : stringify (some (JsVal.num n)) = numberToString n := rfl
    rw [hs] at h
    simp only [statusValues, List.mem_cons, List.mem_singleton, List.not_mem_nil,
      or_false] at h
    rcases h with h | h | h | h <;> rw [h] at hd
    · exact absurd (hd 'p' rfl) (by decide)
    · exact absurd (hd 'p' rfl) (by decide)
    · exact absurd (hd 'v' rfl) (by decide)
    · exact absurd (hd 'a' rfl) (by decide)
  | str s => exact ⟨s, h, rfl⟩
  | arr items => exact absurd rfl (hv items)
  | obj => exact absurd h (by decide)

/-- With unique primary keys, a lookup under a foreign owner finds nothing. -/
theorem findOne_other_owner (t : Table) (R : Factura) (B : String) (hR : R ∈ t)
    (hB : B ≠ R.userId) (hkey : (t.map (fun r => r.id)).Nodup) :
    Factura.findOne t R.id B = none := by
  unfold Factura.findOne
  rw [List.find?_eq_none]
  intro r hr
  simp only [decide_eq_true_eq, not_and]
  intro _ hid huser
  have : r = R := List.inj_on_of_nodup_map hkey hr hR hid
  rw [this] at huser
  exact hB huser.symm

/-- A lookup by an id that no row carries finds nothing. -/
theorem findOne_absent (t : Table) (id B : String) (h : ∀ r ∈ t, r.id ≠ id) :
    Factura.findOne t id B = none := by
  unfold Factura.findOne
  rw [List.find?_eq_none]
  intro r hr
  simp only [decide_eq_true_eq, not_and]
  intro _ hid
  exact absurd hid (h r hr)

/-- With unique primary keys, the lookup of a live row by its id and owner finds it. -/
theorem findOne_owned (t : Table) (r : Factura) (hr : r ∈ t) (hlive : r.deletedAt = none)
    (hkey : (t.map (fun x => x.id)).Nodup) :
    Factura.findOne t r.id r.userId = some r := by
  unfold Factura.findOne
  induction t with
  | nil => cases hr
  | cons x xs ih =>
    rw [List.map_cons, List.nodup_cons] at hkey
    by_cases hx : x = r
    · subst hx
      simp [List.find?, hlive]
    · have hrxs : r ∈ xs := by
        rcases List.mem_cons.mp hr with h | h
        · exact absurd h.symm hx
        · exact h
      have hid : x.id ≠ r.id := by
        intro hid
        exact hkey.1 (hid ▸ List.mem_map_of_mem (fun x => x.id) hrxs)
      simp only [List.find?, hid, false_and, and_false, decide_False]
      exact ih hrxs hkey.2

/-- With unique primary keys, saving an instance rewrites exactly the row it was read from. -/
theorem save_eq_map (t : Table) (r saved : Factura) (hr : r ∈ t) (hid : saved.id = r.id)
    (hkey : (t.map (fun x => x.id)).Nodup) :
    Factura.save t saved = t.map (fun x => if x = r then saved else x) := by
  unfold Factura.save
  apply List.map_congr_left
  intro x hx
  by_cases hxr : x = r
  · simp [hxr, hid]
  · have : x.id ≠ saved.id := by
      intro h
      exact hxr (List.inj_on_of_nodup_map hkey hx hr (h.trans hid))
    simp [hxr, this]

/-- The start of today is the first instant of the local day that contains `now`. -/
theorem startOfToday_spec (clk : Clock) :
    (startOfToday clk + clk.offset) % msPerDay = 0
    ∧ startOfToday clk ≤ clk.now ∧ clk.now < startOfToday clk + msPerDay := by
  simp only [startOfToday, setHours, makeTime, msPerDay]
  omega

/-- An instant lies before the start of today exactly when its local day is an earlier one. -/
theorem lt_startOfToday_iff (clk : Clock) (x : Int) :
    x < startOfToday clk ↔ localDay clk x < localDay clk clk.now := by
  simp only [startOfToday, setHours, makeTime, msPerDay, localDay]
  omega

/-- The instants from 00:00:00.000 to 23:59:59.999 of today are those of today's local day. -/
theorem within_today_iff (clk : Clock) (x : Int) :
    (startOfToday clk ≤ x ∧ x ≤ startOfToday clk + 86399999)
      ↔ localDay clk x = localDay clk clk.now := by
  simp only [startOfToday, setHours, makeTime, msPerDay, localDay]
  omega

/-- The end of today is 23:59:59.999 of the same local day. -/
theorem endOfToday_eq (clk : Clock) : endOfToday clk = startOfToday clk + 86399999 := by
  simp only [startOfToday, endOfToday, setHours, makeTime, msPerDay]
  omega

/-- The bulk update of overdue promotion, row by row. -/
theorem checkOverdueInvoices_eq (clk : Clock) (t : Table) :
    checkOverdueInvoices clk t
      = ((t.filter (overdueAt (startOfToday clk))).length,
         t.map (fun r => if overdueAt (startOfToday clk) r then { r with status := "vencida" }
           else r)) := by
  rfl

/-- Promotion changes the row it is applied to. -/
theorem promoted_ne (r : Factura) (hp : r.status = "pendiente") :
    ({ r with status := "vencida" } : Factura) ≠ r := by
  intro h
  have h2 := congrArg Factura.status h
  simp only [hp] at h2
  exact absurd h2 (by decide)

/-- Rows that a map rewrites under a predicate, counted by position. -/
theorem changedCount_map (t : Table) (p : Factura → Bool) (f : Factura → Factura)
    (hf : ∀ r, p r = true → f r ≠ r) :
    changedCount t (t.map (fun r => if p r then f r else r)) = (t.filter p).length := by
  unfold changedCount
  induction t with
  | nil => rfl
  | cons x xs ih =>
    by_cases hx : p x = true
    · have := hf x hx
      simp only [List.map_cons, List.zip_cons_cons, hx, if_true, List.filter_cons]
      simp only [ne_eq, Ne.symm this, not_false_eq_true, decide_True, if_true, List.length_cons, ih]
    · simp only [List.map_cons, List.zip_cons_cons, hx, List.filter_cons]
      simp only [ne_eq, not_true_eq_false, decide_False, Bool.false_eq_true, if_false, ih]

/-- The loop hands every owed message to the transport and ends normally. -/
theorem notifyLoop_eq (tr : Transport) (invoices : List Loaded) :
    ∀ outbox, notifyLoop tr invoices outbox = (.ok (), outbox ++ invoices.filterMap mailFor) := by
  induction invoices with
  | nil => intro outbox; simp [notifyLoop]
  | cons inv rest ih =>
    intro outbox
    unfold notifyLoop
    rcases hget : inv.included.get "User" with _ | (_ | user)
    · simp [ih, List.filterMap_cons, mailFor, hget]
    · simp [ih, List.filterMap_cons, mailFor, hget]
    · by_cases he : user.email = ""
      · simp [ih, List.filterMap_cons, mailFor, hget, he]
      · simp only [ne_eq, he, not_false_eq_true, if_true, sendInvoiceDueTodayEmail]
        cases tr { recipient := user.email, factura := inv.row.factura, total := inv.row.total }
          <;> simp [ih, List.filterMap_cons, mailFor, hget, he]

/-- The PATCH validator passes when the body carries one of the four status strings. -/
theorem statusValidator_ok (body : Obj JsVal) (s : String) (hs : s ∈ statusValues)
    (hstatus : body.get "status" = some (JsVal.str s)) :
    updateFacturaStatusValidator body = [] := by
  simp [updateFacturaStatusValidator, checkField, hstatus, stringify_str, hs]

/-- The PATCH validator reports a body without `status`. -/
theorem statusValidator_missing (body : Obj JsVal) (hstatus : body.get "status" = none) :
    updateFacturaStatusValidator body
      = [⟨"status", "Status must be pendiente, pagada, vencida, or anulada"⟩] := by
  simp only [updateFacturaStatusValidator, checkField, hstatus]
  rfl

/-- Outcome of `updateFacturaStatus` on an owned live row once the body passes the
validator and the assignments are accepted. -/
theorem updateFacturaStatus_ok (lib : Lib) (t : Table) (r saved : Factura) (body : Obj JsVal)
    (hr : r ∈ t) (hlive : r.deletedAt = none) (hkey : (t.map (fun x => x.id)).Nodup)
    (hval : updateFacturaStatusValidator body = [])
    (happly : applyStatusUpdate lib r body = .ok saved) (hid : saved.id = r.id) :
    updateFacturaStatus lib t r.userId r.id body
      = (⟨200, .successData saved⟩, t.map (fun x => if x = r then saved else x)) := by
  have hfind := findOne_owned t r hr hlive hkey
  have hsave := save_eq_map t r saved hr hid hkey
  simp only [updateFacturaStatus, hval, hfind, happly, hsave]
  simp

/-- Outcome of `updateFactura` on an owned live row once the body passes the validator
and the assignments are accepted. -/
theorem updateFactura_ok (lib : Lib) (t : Table) (r saved : Factura) (body : Obj JsVal)
    (hr : r ∈ t) (hlive : r.deletedAt = none) (hkey : (t.map (fun x => x.id)).Nodup)
    (hval : updateFacturaValidator lib body = [])
    (happly : applyUpdate lib r body = .ok saved) (hid : saved.id = r.id) :
    updateFactura lib t r.userId r.id body
      = (⟨200, .successData saved⟩, t.map (fun x => if x = r then saved else x)) := by
  have hfind := findOne_owned t r hr hlive hkey
  have hsave := save_eq_map t r saved hr hid hkey
  simp only [updateFactura, hval, hfind, happly, hsave]
  simp

/-- What the `ENUM` column accepted is the supplied string, one of the four. -/
theorem acceptStatus_inv (v : JsVal) (s : String) (h : acceptStatus v = .ok s) :
    v = JsVal.str s ∧ s ∈ statusValues := by
  cases v with
  | str x =>
    simp only [acceptStatus] at h
    split at h
    · rename_i hx
      cases h
      exact ⟨rfl, hx⟩
    · cases h
  | null => simp [acceptStatus] at h
  | bool b => simp [acceptStatus] at h
  | num n => simp [acceptStatus] at h
  | arr items => simp [acceptStatus] at h
  | obj => simp [acceptStatus] at h

/-- A row created by `Factura.create` carries the values it was given. -/
theorem create_ok_inv (lib : Lib) (newId : String) (t t' : Table) (v : CreateValues)
    (row : Factura) (h : Factura.create lib newId t v = .ok (row, t')) :
    row.userId = v.userId ∧ row.id = newId ∧ row.deletedAt = none
      ∧ acceptStatus v.status = .ok row.status ∧ t' = t ++ [row] := by
  unfold Factura.create at h
  simp only [bind, Except.bind, pure, Except.pure] at h
  repeat' split at h
  all_goals first
    | (cases h; done)
    | (simp only [Except.ok.injEq, Prod.mk.injEq] at h
       obtain ⟨rfl, rfl⟩ := h
       simp_all)

/-- A chain without `.optional()` on a field that is not an array reports the field
exactly when the test fails on the string form of its value, the empty string for a
missing field. -/
theorem checkField_required (body : Obj JsVal) (field : String) (test : String → Bool)
    (msg : String) (hv : ∀ items, body.get field ≠ some (JsVal.arr items)) :
    checkField body field false test msg
      = if test (stringify (body.get field)) then [] else [⟨field, msg⟩] := by
  unfold checkField
  rcases h : body.get field with _ | v
  · simp
  · cases v with
    | arr items => exact absurd h (hv items)
    | _ => rfl

/-- A chain reports nothing for an array all of whose items pass the test; the empty
array is such an array. -/
theorem checkField_arr_pass (body : Obj JsVal) (field : String) (isOptional : Bool)
    (test : String → Bool) (msg : String) (items : List JsVal)
    (hv : body.get field = some (JsVal.arr items))
    (hall : ∀ x ∈ items, test (stringify (some x)) = true) :
    checkField body field isOptional test msg = [] := by
  simp only [checkField, hv]
  clear hv
  induction items with
  | nil => rfl
  | cons x xs ih =>
    simp only [List.flatMap_cons, hall x (List.mem_cons_self _ _), if_true, List.nil_append]
    exact ih (fun y hy => hall y (List.mem_cons_of_mem _ hy))

/-- A chain reports a present value that is not an array when the test fails on its
string form, with or without `.optional()`. -/
theorem checkField_scalar_fail (body : Obj JsVal) (field : String) (isOptional : Bool)
    (test : String → Bool) (msg : String) (v : JsVal) (hv : body.get field = some v)
    (hscalar : ∀ items, v ≠ JsVal.arr items) (hfail : test (stringify (some v)) = false) :
    checkField body field isOptional test msg = [⟨field, msg⟩] := by
  simp only [checkField, hv]
  cases v with
  | arr items => exact absurd rfl (hscalar items)
  | _ => simp only [hfail, Bool.false_eq_true, if_false]

/-- A chain reports an array that has an item on which the test fails, with or without
`.optional()`. -/
theorem checkField_arr_fail (body : Obj JsVal) (field : String) (isOptional : Bool)
    (test : String → Bool) (msg : String) (items : List JsVal) (x : JsVal)
    (hv : body.get field = some (JsVal.arr items)) (hx : x ∈ items)
    (hfail : test (stringify (some x)) = false) :
    checkField body field isOptional test msg ≠ [] := by
  simp only [checkField, hv]
  clear hv
  induction items with
  | nil => cases hx
  | cons y ys ih =>
    rw [List.flatMap_cons]
    intro h
    obtain ⟨h1, h2⟩ := List.append_eq_nil.mp h
    rcases List.mem_cons.mp hx with hxy | hxy
    · rw [← hxy, hfail] at h1
      simp at h1
    · exact ih hxy h2

/-- A chain with `.optional()` skips a missing field. -/
theorem checkField_optional_absent (body : Obj JsVal) (field : String)
    (test : String → Bool) (msg : String) (hv : body.get field = none) :
    checkField body field true test msg = [] := by
  simp [checkField, hv]

/-- Soft deletion rewrites exactly the row it was called on, when primary keys are unique. -/
theorem destroy_eq_map (clk : Clock) (t : Table) (r : Factura) (hr : r ∈ t)
    (hkey : (t.map (fun x => x.id)).Nodup) :
    Factura.destroy clk t r
      = t.map (fun x => if x = r then { r with deletedAt := some clk.now } else x) := by
  unfold Factura.destroy
  apply List.map_congr_left
  intro x hx
  by_cases hxr : x = r
  · simp [hxr]
  · have : x.id ≠ r.id := fun h => hxr (List.inj_on_of_nodup_map hkey hx hr h)
    simp [hxr, this]

/-- A lookup is not affected by rewriting rows that it rejects before and after. -/
theorem find?_map_of_rejected (p : Factura → Bool) (f : Factura → Factura) (t : Table)
    (h : ∀ x ∈ t, f x = x ∨ (p x = false ∧ p (f x) = false)) :
    (t.map f).find? p = t.find? p := by
  induction t with
  | nil => rfl
  | cons x xs ih =>
    have ih2 := ih (fun y hy => h y (List.mem_cons_of_mem x hy))
    rcases h x (List.mem_cons_self x xs) with hx | ⟨h1, h2⟩
    · simp only [List.map_cons, List.find?, hx, ih2]
    · simp only [List.map_cons, List.find?, h1, h2, ih2]

/-- The sum that the statistics report after `|| 0` is the plain sum over the matching
rows, 0 when there is none. -/
theorem orDefault_sum (t : Table) (whr : Factura → Bool) :
    orDefault (Factura.sum t whr) 0
      = ((t.filter (fun r => decide (r.deletedAt = none) && whr r)).map (fun r => r.total)).sum := by
  unfold Factura.sum
  simp only
  generalize t.filter (fun r => decide (r.deletedAt = none) && whr r) = rows
  cases rows with
  | nil => simp [orDefault]
  | cons x xs =>
    simp only [List.isEmpty_cons, Bool.false_eq_true, if_false, orDefault]
    split
    · rename_i h; rw [h]
    · rfl

/-- Reading the key just written gives the written value. -/
theorem get_set_self {α : Type} (o : Obj α) (k : String) (v : α) :
    (Obj.set o k v).get k = some v := by
  induction o with
  | nil => simp [Obj.set, Obj.get]
  | cons kv rest ih =>
    obtain ⟨k1, v1⟩ := kv
    by_cases h : k1 = k
    · simp [Obj.set, Obj.get, h]
    · simp [Obj.set, Obj.get, h, ih]

/-- Writing a key leaves every other key as it was. -/
theorem get_set_of_ne {α : Type} (o : Obj α) (k k2 : String) (v : α) (h2 : k2 ≠ k) :
    (Obj.set o k v).get k2 = o.get k2 := by
  induction o with
  | nil => simp [Obj.set, Obj.get, Ne.symm h2]
  | cons kv rest ih =>
    obtain ⟨k1, v1⟩ := kv
    by_cases h : k1 = k
    · subst h
      simp [Obj.set, Obj.get, Ne.symm h2]
    · by_cases h3 : k1 = k2
      · subst h3
        simp [Obj.set, Obj.get, h]
      · simp [Obj.set, Obj.get, h, h3, ih]

/-- A deleted key reads as undefined; every other key reads as before. -/
theorem get_delete {α : Type} (o : Obj α) (k k2 : String) :
    (Obj.delete o k).get k2 = if k2 = k then none else o.get k2 := by
  induction o with
  | nil => simp [Obj.delete, Obj.get]
  | cons kv rest ih =>
    obtain ⟨k1, v1⟩ := kv
    unfold Obj.delete at ih ⊢
    simp only [ne_eq, decide_not] at ih ⊢
    by_cases h : k1 = k
    · subst h
      by_cases h3 : k2 = k1
      · subst h3
        simp [List.filter, ih]
      · simp [List.filter, ih, h3, Obj.get, Ne.symm h3]
    · by_cases h3 : k1 = k2
      · subst h3
        simp [List.filter, h, Obj.get]
      · simp [List.filter, h, Obj.get, h3, ih]

/-- After the deletions of `filter()` a key reads as undefined when it is among the
deleted ones and as before otherwise. -/
theorem get_foldl_delete {α : Type} (ks : List String) (o : Obj α) (k : String) :
    (ks.foldl (fun o el => Obj.delete o el) o).get k = if k ∈ ks then none else o.get k := by
  induction ks generalizing o with
  | nil => simp
  | cons x xs ih =>
    simp only [List.foldl_cons, ih, get_delete, List.mem_cons]
    by_cases h1 : k ∈ xs
    · simp [h1]
    · by_cases h2 : k = x
      · simp [h1, h2]
      · simp [h1, h2]

/-- Deleting keys keeps the keys of an object distinct. -/
theorem nodup_foldl_delete {α : Type} (ks : List String) (o : Obj α)
    (h : (o.map Prod.fst).Nodup) :
    ((ks.foldl (fun o el => Obj.delete o el) o).map Prod.fst).Nodup := by
  induction ks generalizing o with
  | nil => simpa using h
  | cons x xs ih =>
    simp only [List.foldl_cons]
    apply ih
    exact List.Nodup.sublist (List.Sublist.map _ (List.filter_sublist _)) h

/-- A key that an object does not carry reads as undefined. -/
theorem get_of_not_mem {α : Type} (o : Obj α) (k : String) (h : k ∉ o.map Prod.fst) :
    o.get k = none := by
  induction o with
  | nil => rfl
  | cons kv rest ih =>
    obtain ⟨k1, v1⟩ := kv
    simp only [List.map_cons, List.mem_cons, not_or] at h
    simp [Obj.get, Ne.symm h.1, ih h.2]

/-- The assignment loop of `filter()`: afterwards a key reads as the query's value when
the (remaining) query carries it, and as before otherwise. -/
theorem get_foldl_set (q : Obj QVal) (hq : (q.map Prod.fst).Nodup) (w : Obj Cond)
    (k : String) :
    (q.foldl (fun w kv => Obj.set w kv.1 (Cond.eq kv.2)) w).get k
      = match q.get k with
        | some v => some (Cond.eq v)
        | none => w.get k := by
  induction q generalizing w with
  | nil => rfl
  | cons kv rest ih =>
    obtain ⟨k1, v1⟩ := kv
    rw [List.map_cons, List.nodup_cons] at hq
    simp only [List.foldl_cons, ih hq.2]
    by_cases h : k1 = k
    · subst h
      simp [Obj.get, get_of_not_mem rest k1 hq.1, get_set_self]
    · simp [Obj.get, h, get_set_of_ne _ _ _ _ (Ne.symm h)]

/-- For a positive divisor `ceilDiv` is the least multiple count that covers `n`. -/
theorem ceilDiv_spec (n l : Int) (hl : 1 ≤ l) :
    (ceilDiv n l - 1) * l < n ∧ n ≤ ceilDiv n l * l := by
  have h0 : (0 : Int) ≤ l := by omega
  have hq := Int.emod_add_ediv (-n) l
  have hr1 := Int.emod_nonneg (-n) (show l ≠ 0 by omega)
  have hr2 := Int.emod_lt_of_pos (-n) (show 0 < l by omega)
  simp only [ceilDiv, Int.fdiv_eq_ediv _ h0]
  constructor <;> nlinarith

/-- The pages of a list, one after the other, are its initial segment. -/
theorem pages_bind (ms : List Factura) (l k : Nat) :
    (List.range k).flatMap (fun i => pageRows ms (i + 1) l) = ms.take (k * l) := by
  induction k with
  | zero => simp
  | succ k ih =>
    rw [List.range_succ, List.flatMap_append, ih]
    simp only [List.flatMap_singleton, pageRows, Nat.add_sub_cancel]
    rw [Nat.succ_mul, List.take_add]

/-- The offset that `paginate()` computes for page `p` of size `l`, as a row count. -/
theorem offset_toNat (p l : Nat) (hp : 1 ≤ p) :
    (((p : Int) - 1) * (l : Int)).toNat = (p - 1) * l := by
  have h : ((p : Int) - 1) * (l : Int) = (((p - 1) * l : Nat) : Int) := by
    push_cast [Nat.cast_sub hp]
    ring
  rw [h, Int.toNat_natCast]

/-- Outcome of `execute()` after `paginate()` produced page `p` and limit `l`. -/
theorem execute_paged (e : Engine) (t : Table) (f : ApiFeatures) (p l : Nat)
    (hp : 1 ≤ p) (hl : 1 ≤ l) (hperm : ∀ o rows, (e.orderRows o rows).Perm rows) :
    (paged f p l).execute e t
      = .ok { data := pageRows (selectedRows e t f.queryObj) p l
              total := (selectedRows e t f.queryObj).length
              totalPages := some (ceilDiv (selectedRows e t f.queryObj).length l)
              currentPage := some p } := by
  have hoff : ¬ (((p : Int) - 1) * (l : Int) < 0 ∨ (l : Int) < 0) := by
    have h1 : (0 : Int) ≤ ((p : Int) - 1) * (l : Int) :=
      Int.mul_nonneg (by omega) (by omega)
    omega
  have hl0 : (l : Int) ≠ 0 := by omega
  simp only [ApiFeatures.execute, Factura.findAndCountAll, paged, Option.getD_some, hoff,
    if_false, hl0, offset_toNat p l hp, Int.toNat_natCast, pageRows, selectedRows,
    (hperm _ _).length_eq]

/-- Method `paginate()` in terms of the values its two parameters evaluate to. -/
theorem paginate_eq_paged (f : ApiFeatures) :
    f.paginate = paged f (orDefault (parseIntQ (f.queryString.get "page")) 1)
      (orDefault (parseIntQ (f.queryString.get "limit")) 10) := rfl

/-- The list handler's instance, from its base restriction. -/
theorem getFacturasFeatures_eq (clk : Clock) (u : String) (query : Obj QVal) :
    getFacturasFeatures clk u query
      = (((ApiFeatures.new ((query.delete "year").delete "month")
            (initialWhereOf clk u query)).filter).sort).paginate := by
  rfl

/-- Method `sort()` leaves the restriction alone. -/
theorem sort_whereObj (f : ApiFeatures) : f.sort.queryObj.whereObj = f.queryObj.whereObj := by
  unfold ApiFeatures.sort
  split
  · split <;> rfl
  · rfl

/-- The restriction handed to the store is the one `filter()` leaves. -/
theorem getFacturasWhere_eq (clk : Clock) (u : String) (query : Obj QVal) :
    getFacturasWhere clk u query
      = ((ApiFeatures.new ((query.delete "year").delete "month")
            (initialWhereOf clk u query)).filter).queryObj.whereObj := by
  unfold getFacturasWhere
  rw [getFacturasFeatures_eq, paginate_eq_paged]
  simp only [paged, sort_whereObj]

/-- A key reads as undefined exactly when the object does not carry it. -/
theorem get_eq_none_iff {α : Type} (o : Obj α) (k : String) :
    o.get k = none ↔ k ∉ o.map Prod.fst := by
  induction o with
  | nil => simp [Obj.get]
  | cons kv rest ih =>
    obtain ⟨k1, v1⟩ := kv
    by_cases h : k1 = k
    · simp [Obj.get, h]
    · simp [Obj.get, h, ih, Ne.symm h]

/-- The assignment loop of `filter()` does not touch a key the query does not carry. -/
theorem get_foldl_set_absent (q : Obj QVal) (w : Obj Cond) (k : String)
    (h : q.get k = none) :
    (q.foldl (fun w kv => Obj.set w kv.1 (Cond.eq kv.2)) w).get k = w.get k := by
  induction q generalizing w with
  | nil => rfl
  | cons kv rest ih =>
    obtain ⟨k1, v1⟩ := kv
    have hk : k1 ≠ k := by
      intro hk
      simp [Obj.get, hk] at h
    have hrest : Obj.get rest k = none := by
      simpa [Obj.get, hk] using h
    simp only [List.foldl_cons, ih _ hrest]
    exact get_set_of_ne _ _ _ _ (Ne.symm hk)

/-- On a key the query does not carry, or that is removed before the overlay, the list
restriction is the base restriction. -/
theorem getFacturasWhere_get_base (clk : Clock) (u : String) (query : Obj QVal) (k : String)
    (h : query.get k = none ∨ k = "year" ∨ k = "month" ∨ k ∈ excludedFields) :
    (getFacturasWhere clk u query).get k = (initialWhereOf clk u query).get k := by
  rw [getFacturasWhere_eq]
  simp only [ApiFeatures.filter, ApiFeatures.new]
  apply get_foldl_set_absent
  rw [get_foldl_delete, get_delete, get_delete]
  split
  · rfl
  · split
    · rfl
    · split
      · rfl
      · rename_i h1 h2 h3
        rcases h with h | h | h | h
        · exact h
        · exact absurd h h3
        · exact absurd h h2
        · exact absurd h h1

/-- On any other key that the query carries, the list restriction is the query's value. -/
theorem getFacturasWhere_get_query (clk : Clock) (u : String) (query : Obj QVal) (k : String)
    (v : QVal) (hq : (query.map Prod.fst).Nodup) (hv : query.get k = some v)
    (hk : k ∉ excludedFields) (hyear : k ≠ "year") (hmonth : k ≠ "month") :
    (getFacturasWhere clk u query).get k = some (Cond.eq v) := by
  rw [getFacturasWhere_eq]
  simp only [ApiFeatures.filter, ApiFeatures.new]
  have hnodup : (((query.delete "year").delete "month").map Prod.fst).Nodup := by
    apply List.Nodup.sublist (List.Sublist.map _ (List.filter_sublist _))
    exact List.Nodup.sublist (List.Sublist.map _ (List.filter_sublist _)) hq
  rw [get_foldl_set _ (nodup_foldl_delete excludedFields _ hnodup), get_foldl_delete,
    get_delete, get_delete]
  simp only [hk, hyear, hmonth, if_false, hv]

/-- A parameter that `parseInt` reads as a number is truthy. -/
theorem truthy_of_parseIntQ (v : Option QVal) (n : Int) (h : parseIntQ v = some n) :
    QVal.truthy v = true := by
  cases v with
  | none => simp [parseIntQ] at h
  | some q =>
    cases q with
    | arr xs => rfl
    | str s =>
      by_cases hs : s = ""
      · subst hs
        have hp : parseInt "" = none := by rfl
        simp [parseIntQ, QVal.toStr, hp] at h
      · simp [QVal.truthy, hs]

/-- The day number is linear in the day of the month. -/
theorem daysFromCivil_day (y m d : Int) :
    daysFromCivil y m d = daysFromCivil y m 1 + (d - 1) := by
  simp only [daysFromCivil]
  omega

/-- The first day of the following month comes `daysInMonth` days after the first day
of a month. -/
theorem daysFromCivil_next_month (y m : Int) (h1 : 1 ≤ m) (h12 : m ≤ 12) :
    daysFromCivil (y + m / 12) (m % 12 + 1) 1 = daysFromCivil y m 1 + daysInMonth y m := by
  interval_cases m <;> simp only [daysFromCivil, daysInMonth, isLeapYear] <;> norm_num <;> omega

/-- The `Date` built for the first instant of a month. -/
theorem newDate_month_start (clk : Clock) (y m : Int) (hy : ¬ (0 ≤ y ∧ y ≤ 99))
    (h1 : 1 ≤ m) (h12 : m ≤ 12) :
    newDate clk (some y) ((some m).map (· - 1)) 1 0 0 0 0
      = timeClip (localInstant clk y m 1 0 0 0 0) := by
  have ha : (m - 1) / 12 = 0 := by omega
  have hb : (m - 1) % 12 = m - 1 := by omega
  simp only [newDate, Option.map_some', hy, if_false, makeDay, ha, hb, localInstant]
  congr 2
  ring_nf

/-- The `Date` built with day 0 of the following month is the last instant of the month. -/
theorem newDate_month_end (clk : Clock) (y m : Int) (hy : ¬ (0 ≤ y ∧ y ≤ 99))
    (h1 : 1 ≤ m) (h12 : m ≤ 12) :
    newDate clk (some y) (some m) 0 23 59 59 999
      = timeClip (localInstant clk y m (daysInMonth y m) 23 59 59 999) := by
  simp only [newDate, hy, if_false, makeDay, daysFromCivil_next_month y m h1 h12, localInstant]
  rw [daysFromCivil_day y m (daysInMonth y m)]
  congr 2
  ring_nf

/-- The `Date` objects built for the first and the last instant of a year. -/
theorem newDate_year (clk : Clock) (y : Int) (hy : ¬ (0 ≤ y ∧ y ≤ 99)) :
    newDate clk (some y) (some 0) 1 0 0 0 0 = timeClip (localInstant clk y 1 1 0 0 0 0)
    ∧ newDate clk (some y) (some 11) 31 23 59 59 999
        = timeClip (localInstant clk y 12 31 23 59 59 999) := by
  constructor
  · simp only [newDate, hy, if_false, makeDay, localInstant]
    norm_num
  · simp only [newDate, hy, if_false, makeDay, localInstant]
    rw [daysFromCivil_day y 12 31]
    norm_num
    congr 2
    ring_nf

/-- The row at a position after overdue promotion. -/
theorem checkOverdueInvoices_getElem (clk : Clock) (t : Table) (i : Nat) (r : Factura)
    (hi : t[i]? = some r) :
    (checkOverdueInvoices clk t).2[i]?
      = some (if overdueAt (startOfToday clk) r then { r with status := "vencida" } else r) := by
  rw [checkOverdueInvoices_eq]
  simp only [List.getElem?_map, hi, Option.map_some']

/-- A callback always completes, and a store failure leaves tables and outbox as found. -/
theorem jobCallback_ok (tr : Transport) (f : Firing) (w : World) :
    ∃ w2, jobCallback tr f w = .ok w2
      ∧ (f.storeFault ≠ none →
          w2.table = w.table ∧ w2.users = w.users ∧ w2.outbox = w.outbox) := by
  obtain ⟨job, clk, fault⟩ := f
  cases job <;> cases fault <;>
    simp [jobCallback, checkOverdueInvoicesRun, checkDueTodayInvoicesRun]

/-- What a callback does to tables and outbox does not depend on the log. -/
theorem jobCallback_congr (tr : Transport) (f : Firing) (w v w2 v2 : World)
    (ht : w.table = v.table) (hu : w.users = v.users) (ho : w.outbox = v.outbox)
    (hw : jobCallback tr f w = .ok w2) (hv : jobCallback tr f v = .ok v2) :
    w2.table = v2.table ∧ w2.users = v2.users ∧ w2.outbox = v2.outbox := by
  obtain ⟨job, clk, fault⟩ := f
  cases job <;> cases fault <;>
    simp only [jobCallback, checkOverdueInvoicesRun, checkDueTodayInvoicesRun, Except.ok.injEq]
      at hw hv <;>
    subst hw <;> subst hv <;> simp [ht, hu, ho]

/-- The empty header does not start with "Bearer". -/
theorem startsWith_ne_empty (header : String) (h : startsWith header "Bearer" = true) :
    header ≠ "" := by
  intro he
  rw [he] at h
  exact absurd h (by decide)

/-! ## Claims -/

/-- C1: the owner restriction of `getFacturas` does not survive a query parameter named
`userId`. Caller "A" sending `?userId=B` hands the store a `where` whose `userId`
is "B", not "A": `filter()` overlays the query onto the base restriction. -/
theorem getFacturas_userId_overridden (clk : Clock) :
    (getFacturasWhere clk "A" [("userId", QVal.str "B")]).get "userId"
        = some (Cond.eq (QVal.str "B"))
    ∧ (getFacturasWhere clk "A" [("userId", QVal.str "B")]).get "userId"
        ≠ some (Cond.eq (QVal.str "A")) := by
  constructor
  · rfl
  · intro h
    have h2 : (getFacturasWhere clk "A" [("userId", QVal.str "B")]).get "userId"
        = some (Cond.eq (QVal.str "B")) := rfl
    rw [h2] at h
    exact absurd h (by decide)

/-- C2: a record owned by someone else is reported exactly like a missing one.
For a table with unique primary keys, a row `R` in it and a caller `B` who is not its
owner, `getFacturaById`, `updateFactura`, `updateFacturaStatus` and `deleteFactura`
called as `B` with `R.id` (payloads passing their validators) answer
404 "Factura not found" and leave the table as it was; called with an id that no
row carries they give the same results. -/
theorem cross_owner_is_not_found (lib : Lib) (clk : Clock) (t : Table) (R : Factura)
    (B absent : String) (bodyPut bodyPatch : Obj JsVal)
    (hR : R ∈ t) (hB : B ≠ R.userId) (hkey : (t.map (fun r => r.id)).Nodup)
    (hPut : updateFacturaValidator lib bodyPut = [])
    (hPatch : updateFacturaStatusValidator bodyPatch = [])
    (habsent : ∀ r ∈ t, r.id ≠ absent) :
    (getFacturaById t B R.id = ⟨404, .error "Factura not found"⟩
      ∧ updateFactura lib t B R.id bodyPut = (⟨404, .error "Factura not found"⟩, t)
      ∧ updateFacturaStatus lib t B R.id bodyPatch = (⟨404, .error "Factura not found"⟩, t)
      ∧ deleteFactura clk t B R.id = (⟨404, .error "Factura not found"⟩, t))
    ∧ (getFacturaById t B absent = getFacturaById t B R.id
      ∧ updateFactura lib t B absent bodyPut = updateFactura lib t B R.id bodyPut
      ∧ updateFacturaStatus lib t B absent bodyPatch = updateFacturaStatus lib t B R.id bodyPatch
      ∧ deleteFactura clk t B absent = deleteFactura clk t B R.id) := by
  have h1 := findOne_other_owner t R B hR hB hkey
  have h2 := findOne_absent t absent B habsent
  simp [getFacturaById, updateFactura, updateFacturaStatus, deleteFactura, h1, h2, hPut, hPatch]

/-- Witness for C2: invoice F-001 of owner "A", requested by "B", next to the
missing id "f-9". -/
theorem cross_owner_is_not_found_witness :
    (getFacturaById [f001] "B" f001.id = ⟨404, .error "Factura not found"⟩
      ∧ updateFactura demoLib [f001] "B" f001.id [] = (⟨404, .error "Factura not found"⟩, [f001])
      ∧ updateFacturaStatus demoLib [f001] "B" f001.id [("status", .str "pagada")]
          = (⟨404, .error "Factura not found"⟩, [f001])
      ∧ deleteFactura clockJan1 [f001] "B" f001.id = (⟨404, .error "Factura not found"⟩, [f001]))
    ∧ (getFacturaById [f001] "B" "f-9" = getFacturaById [f001] "B" f001.id
      ∧ updateFactura demoLib [f001] "B" "f-9" [] = updateFactura demoLib [f001] "B" f001.id []
      ∧ updateFacturaStatus demoLib [f001] "B" "f-9" [("status", .str "pagada")]
          = updateFacturaStatus demoLib [f001] "B" f001.id [("status", .str "pagada")]
      ∧ deleteFactura clockJan1 [f001] "B" "f-9" = deleteFactura clockJan1 [f001] "B" f001.id) :=
  cross_owner_is_not_found demoLib clockJan1 [f001] f001 "B" "f-9" []
    [("status", .str "pagada")] (by simp) (by decide) (by simp) (by rfl) (by rfl)
    (by decide)

/-- C3: an array escapes the status check. Both update validators test `status` with
`isIn`, which express-validator runs on each item of an array and on nothing for the
empty array. So a body whose `status` is an array with every item reading as one of the
four status strings (`[]`, or `["pagada", "vencida"]`), which is not itself one of the
four strings, passes `updateFacturaStatusValidator` and `updateFacturaValidator`:
`updateFacturaStatus` (PATCH) and `updateFactura` (PUT) do not answer 400 but go on to
the lookup (404 when nothing is found) and, for a record found, to the assignment and
the save. Elsewhere the check holds: a `status` that is not an array and not one of the
four strings, or an array with an item that does not read as one of them, is answered 400
with a non-empty error list and the table is unchanged. -/
theorem array_status_escapes_validation (lib : Lib) (t : Table) (userId id : String)
    (items : List JsVal) (hitems : ∀ x ∈ items, stringify (some x) ∈ statusValues) :
    (∀ s ∈ statusValues, JsVal.arr items ≠ JsVal.str s)
    ∧ updateFacturaStatusValidator [("status", .arr items)] = []
    ∧ updateFacturaValidator lib [("status", .arr items)] = []
    ∧ (updateFacturaStatus lib t userId id [("status", .arr items)]).1.code ≠ 400
    ∧ (updateFactura lib t userId id [("status", .arr items)]).1.code ≠ 400
    ∧ (Factura.findOne t id userId = none →
        updateFacturaStatus lib t userId id [("status", .arr items)]
            = (⟨404, .error "Factura not found"⟩, t)
          ∧ updateFactura lib t userId id [("status", .arr items)]
            = (⟨404, .error "Factura not found"⟩, t))
    ∧ (∀ r, Factura.findOne t id userId = some r →
        updateFacturaStatus lib t userId id [("status", .arr items)]
            = (match applyStatusUpdate lib r [("status", .arr items)] with
              | .ok saved => (⟨200, .successData saved⟩, Factura.save t saved)
              | .error _ => (⟨500, .error "Server error"⟩, t))
          ∧ updateFactura lib t userId id [("status", .arr items)]
            = (match applyUpdate lib r [("status", .arr items)] with
              | .ok saved => (⟨200, .successData saved⟩, Factura.save t saved)
              | .error _ => (⟨500, .error "Server error"⟩, t)))
    ∧ (∀ (body : Obj JsVal) (v : JsVal), body.get "status" = some v →
        (∀ xs, v ≠ JsVal.arr xs) → (∀ s ∈ statusValues, v ≠ JsVal.str s) →
        (∃ errs, errs ≠ [] ∧
          updateFacturaStatus lib t userId id body = (⟨400, .validationErrors errs⟩, t))
        ∧ (∃ errs, errs ≠ [] ∧
          updateFactura lib t userId id body = (⟨400, .validationErrors errs⟩, t)))
    ∧ (∀ (body : Obj JsVal) (xs : List JsVal) (x : JsVal),
        body.get "status" = some (JsVal.arr xs) → x ∈ xs →
        stringify (some x) ∉ statusValues →
        (∃ errs, errs ≠ [] ∧
          updateFacturaStatus lib t userId id body = (⟨400, .validationErrors errs⟩, t))
        ∧ (∃ errs, errs ≠ [] ∧
          updateFactura lib t userId id body = (⟨400, .validationErrors errs⟩, t))) := by
  have hget : Obj.get [("status", JsVal.arr items)] "status" = some (JsVal.arr items) := by
    simp [Obj.get]
  have hpass : ∀ x ∈ items,
      (fun s => decide (s ∈ statusValues)) (stringify (some x)) = true := by
    intro x hx
    exact decide_eq_true (hitems x hx)
  have hval1 : updateFacturaStatusValidator [("status", JsVal.arr items)] = [] :=
    checkField_arr_pass _ "status" false _ _ items hget hpass
  have hval2 : updateFacturaValidator lib [("status", JsVal.arr items)] = [] := by
    unfold updateFacturaValidator
    rw [checkField_optional_absent _ "factura" _ _ (by simp [Obj.get]),
      checkField_optional_absent _ "total" _ _ (by simp [Obj.get]),
      checkField_optional_absent _ "fecha_de_vencimiento" _ _ (by simp [Obj.get]),
      checkField_arr_pass _ "status" true _ _ items hget hpass]
    rfl
  have hpatch : ∀ r, Factura.findOne t id userId = some r →
      updateFacturaStatus lib t userId id [("status", .arr items)]
        = (match applyStatusUpdate lib r [("status", .arr items)] with
          | .ok saved => (⟨200, .successData saved⟩, Factura.save t saved)
          | .error _ => (⟨500, .error "Server error"⟩, t)) := by
    intro r hr
    simp [updateFacturaStatus, hval1, hr]
  have hput : ∀ r, Factura.findOne t id userId = some r →
      updateFactura lib t userId id [("status", .arr items)]
        = (match applyUpdate lib r [("status", .arr items)] with
          | .ok saved => (⟨200, .successData saved⟩, Factura.save t saved)
          | .error _ => (⟨500, .error "Server error"⟩, t)) := by
    intro r hr
    simp [updateFactura, hval2, hr]
  have hpatch0 : Factura.findOne t id userId = none →
      updateFacturaStatus lib t userId id [("status", .arr items)]
        = (⟨404, .error "Factura not found"⟩, t) := by
    intro h0
    simp [updateFacturaStatus, hval1, h0]
  have hput0 : Factura.findOne t id userId = none →
      updateFactura lib t userId id [("status", .arr items)]
        = (⟨404, .error "Factura not found"⟩, t) := by
    intro h0
    simp [updateFactura, hval2, h0]
  refine ⟨fun s _ h => (by cases h), hval1, hval2, ?_, ?_, fun h0 => ⟨hpatch0 h0, hput0 h0⟩,
    fun r hr => ⟨hpatch r hr, hput r hr⟩, ?_, ?_⟩
  · rcases hf : Factura.findOne t id userId with _ | r
    · rw [hpatch0 hf]
      simp
    · rw [hpatch r hf]
      cases applyStatusUpdate lib r [("status", .arr items)] <;> simp
  · rcases hf : Factura.findOne t id userId with _ | r
    · rw [hput0 hf]
      simp
    · rw [hput r hf]
      cases applyUpdate lib r [("status", .arr items)] <;> simp
  · intro body v hv hscalar hbad
    have hno : (fun s => decide (s ∈ statusValues)) (stringify (some v)) = false := by
      apply decide_eq_false
      intro h
      obtain ⟨s, hs, hvs⟩ := stringify_mem_statusValues v hscalar h
      exact hbad s hs hvs
    have herr1 : updateFacturaStatusValidator body ≠ [] := by
      unfold updateFacturaStatusValidator
      rw [checkField_scalar_fail body "status" false _ _ v hv hscalar hno]
      simp
    have herr2 : updateFacturaValidator lib body ≠ [] := by
      unfold updateFacturaValidator
      rw [checkField_scalar_fail body "status" true _ _ v hv hscalar hno]
      simp
    exact ⟨⟨updateFacturaStatusValidator body, herr1, by simp [updateFacturaStatus, herr1]⟩,
      ⟨updateFacturaValidator lib body, herr2, by simp [updateFactura, herr2]⟩⟩
  · intro body xs x hv hx hbad
    have hno : (fun s => decide (s ∈ statusValues)) (stringify (some x)) = false :=
      decide_eq_false hbad
    have herr1 : updateFacturaStatusValidator body ≠ [] :=
      checkField_arr_fail body "status" false _ _ xs x hv hx hno
    have herr2 : updateFacturaValidator lib body ≠ [] := by
      unfold updateFacturaValidator
      intro h
      exact checkField_arr_fail body "status" true _ _ xs x hv hx hno (List.append_eq_nil.mp h).2
    exact ⟨⟨updateFacturaStatusValidator body, herr1, by simp [updateFacturaStatus, herr1]⟩,
      ⟨updateFacturaValidator lib body, herr2, by simp [updateFactura, herr2]⟩⟩

/-- Witness for C3: on invoice F-001 the status `[]` and the status
`["pagada", "vencida"]` both pass the two validators and are not answered 400; the
status "cancelada" is. -/
theorem array_status_escapes_validation_witness :
    (updateFacturaStatusValidator [("status", .arr [])] = []
      ∧ updateFacturaValidator demoLib [("status", .arr [])] = []
      ∧ (updateFacturaStatus demoLib [f001] "A" "f-1" [("status", .arr [])]).1.code ≠ 400
      ∧ (updateFactura demoLib [f001] "A" "f-1" [("status", .arr [])]).1.code ≠ 400)
    ∧ (updateFacturaStatusValidator [("status", .arr [.str "pagada", .str "vencida"])] = []
      ∧ (updateFacturaStatus demoLib [f001] "A" "f-1"
          [("status", .arr [.str "pagada", .str "vencida"])]).1.code ≠ 400)
    ∧ (∃ errs, errs ≠ [] ∧
        updateFacturaStatus demoLib [f001] "A" "f-1" [("status", .str "cancelada")]
          = (⟨400, .validationErrors errs⟩, [f001])) :=
  let h1 := array_status_escapes_validation demoLib [f001] "A" "f-1" []
    (by intro x hx; cases hx)
  let h2 := array_status_escapes_validation demoLib [f001] "A" "f-1"
    [.str "pagada", .str "vencida"] (by decide)
  ⟨⟨h1.2.1, h1.2.2.1, h1.2.2.2.1, h1.2.2.2.2.1⟩, ⟨h2.2.1, h2.2.2.2.1⟩,
    (h1.2.2.2.2.2.2.2.1 [("status", .str "cancelada")] (.str "cancelada") (by rfl)
      (by intro xs h; cases h) (by decide)).1⟩

/-- C4: `createFactura` hands an unchecked status to the store. The create validator
has no rule for `status`, so the request `createBodyFoo` passes validation whenever
its due date is accepted as ISO 8601, and the values passed to `Factura.create` carry
the status "foo", which is not one of the four status strings. -/
theorem createFactura_hands_unchecked_status (lib : Lib)
    (hdate : lib.isISO8601 "2025-01-01" = true) :
    createFacturaValidator lib createBodyFoo = []
    ∧ (createFacturaValues "U" createBodyFoo).status = JsVal.str "foo"
    ∧ "foo" ∉ statusValues := by
  refine ⟨?_, by rfl, by decide⟩
  have h1 : stringify (Obj.get createBodyFoo "fecha_de_vencimiento") = "2025-01-01" := by rfl
  have h2 : Obj.get createBodyFoo "fecha_de_vencimiento" = some (.str "2025-01-01") := by rfl
  have h3 : checkField createBodyFoo "factura" false (fun s => s ≠ "")
      "Factura identifier is required" = [] := by rfl
  have h4 : checkField createBodyFoo "total" false isNumeric "Total must be a number" = [] := by
    rfl
  rw [createFacturaValidator, h3, h4]
  simp [checkField, h2, stringify_str, hdate]

/-- Witness for C4: with the sample library the request passes validation, the values
handed to the store carry "foo", and the store refuses them (500). -/
theorem createFactura_hands_unchecked_status_witness :
    (createFacturaValidator demoLib createBodyFoo = []
      ∧ (createFacturaValues "U" createBodyFoo).status = JsVal.str "foo"
      ∧ "foo" ∉ statusValues)
    ∧ (createFactura demoLib "f-2" [] "U" createBodyFoo).1.code = 500 :=
  ⟨createFactura_hands_unchecked_status demoLib (by rfl), by rfl⟩

/-- C5: overdue promotion changes exactly the pending records due before today.
`startOfToday` is the first instant (00:00:00.000) of the local day of the invocation.
The table after `checkOverdueInvoices` is the table before with the status set to
"vencida" on exactly the rows that are records of the paranoid model (not soft-deleted),
pending and due strictly before that instant; every other row and every other field are
as before, and the reported count is the number of rows that changed. -/
theorem overdue_promotion_exact (clk : Clock) (t : Table) :
    ((startOfToday clk + clk.offset) % msPerDay = 0
      ∧ startOfToday clk ≤ clk.now ∧ clk.now < startOfToday clk + msPerDay)
    ∧ (checkOverdueInvoices clk t).2
        = t.map (fun r =>
            if r.deletedAt = none ∧ r.status = "pendiente"
                ∧ r.fecha_de_vencimiento < startOfToday clk
            then { r with status := "vencida" } else r)
    ∧ (checkOverdueInvoices clk t).1 = changedCount t (checkOverdueInvoices clk t).2 := by
  refine ⟨startOfToday_spec clk, ?_, ?_⟩
  · rw [checkOverdueInvoices_eq]
    apply List.map_congr_left
    intro r _
    simp [overdueAt, and_assoc]
  · rw [checkOverdueInvoices_eq]
    simp only
    rw [changedCount_map]
    intro r hr
    simp only [overdueAt, Bool.and_eq_true, decide_eq_true_eq] at hr
    exact promoted_ne r hr.2.1

/-- C6: overdue promotion is idempotent within a calendar day. A first run updates the
qualifying rows and reports their number; a second run at any instant of the same local
day, with no write in between, reports 0 and leaves the table as the first run left it. -/
theorem overdue_promotion_idempotent (clk clk2 : Clock) (t : Table)
    (hoff : clk2.offset = clk.offset)
    (hday : localDay clk clk2.now = localDay clk clk.now) :
    (checkOverdueInvoices clk t).1 = (t.filter (overdueAt (startOfToday clk))).length
    ∧ (checkOverdueInvoices clk t).1 = changedCount t (checkOverdueInvoices clk t).2
    ∧ (checkOverdueInvoices clk2 (checkOverdueInvoices clk t).2).1 = 0
    ∧ (checkOverdueInvoices clk2 (checkOverdueInvoices clk t).2).2
        = (checkOverdueInvoices clk t).2 := by
  have hnone : ∀ r ∈ t.map (fun r => if overdueAt (startOfToday clk) r
      then { r with status := "vencida" } else r),
      overdueAt (startOfToday clk2) r = false := by
    intro r hr
    obtain ⟨r0, _, rfl⟩ := List.mem_map.mp hr
    by_cases h : overdueAt (startOfToday clk) r0 = true
    · simp only [h, if_true]
      simp [overdueAt]
    · have hs : startOfToday clk2 = startOfToday clk := by
        simp only [startOfToday, setHours, makeTime, msPerDay, localDay, hoff] at hday ⊢
        omega
      simp only [h]
      rw [hs]
      simpa using h
  refine ⟨by rw [checkOverdueInvoices_eq], ?_, ?_, ?_⟩
  · rw [checkOverdueInvoices_eq]
    simp only
    rw [changedCount_map]
    intro r hr
    simp only [overdueAt, Bool.and_eq_true, decide_eq_true_eq] at hr
    exact promoted_ne r hr.2.1
  · rw [checkOverdueInvoices_eq clk t, checkOverdueInvoices_eq clk2]
    simp only [List.length_eq_zero, List.filter_eq_nil_iff]
    intro r hr
    simp [hnone r hr]
  · rw [checkOverdueInvoices_eq clk t, checkOverdueInvoices_eq clk2]
    simp only
    conv_rhs => rw [← List.map_id (List.map _ t)]
    apply List.map_congr_left
    intro r hr
    simp [hnone r hr]

/-- Witness for C6: invoice F-001, due 2025-01-01, swept at 00:00 and again at 12:00 on
2025-01-02: the first run updates one row, the second none. -/
theorem overdue_promotion_idempotent_witness :
    ((checkOverdueInvoices clockJan2 [f001]).1
        = ([f001].filter (overdueAt (startOfToday clockJan2))).length
      ∧ (checkOverdueInvoices clockJan2 [f001]).1
        = changedCount [f001] (checkOverdueInvoices clockJan2 [f001]).2
      ∧ (checkOverdueInvoices clockJan2Noon (checkOverdueInvoices clockJan2 [f001]).2).1 = 0
      ∧ (checkOverdueInvoices clockJan2Noon (checkOverdueInvoices clockJan2 [f001]).2).2
        = (checkOverdueInvoices clockJan2 [f001]).2)
    ∧ (checkOverdueInvoices clockJan2 [f001]).1 = 1
    ∧ (checkOverdueInvoices clockJan2 [f001]).2 = [{ f001 with status := "vencida" }] :=
  ⟨overdue_promotion_idempotent clockJan2 clockJan2Noon [f001] (by rfl) (by decide),
    by decide, by decide⟩

/-- C7: the day boundary of overdue promotion. For a pending record (a row that is not
soft-deleted) at any position of the table: when its due date is an instant of the local
calendar day of the invocation, from 00:00:00.000 through 23:59:59.999, the run leaves the
row as it is; when its due date is an instant of an earlier local day, that is, before
the start of today, the run sets its status to "vencida". -/
theorem overdue_day_boundary (clk : Clock) (t : Table) (i : Nat) (r : Factura)
    (hi : t[i]? = some r) (hlive : r.deletedAt = none) (hpend : r.status = "pendiente") :
    (localDay clk r.fecha_de_vencimiento = localDay clk clk.now →
        (checkOverdueInvoices clk t).2[i]? = some r)
    ∧ (startOfToday clk ≤ r.fecha_de_vencimiento
        ∧ r.fecha_de_vencimiento ≤ startOfToday clk + 86399999 →
        (checkOverdueInvoices clk t).2[i]? = some r)
    ∧ (localDay clk r.fecha_de_vencimiento < localDay clk clk.now →
        (checkOverdueInvoices clk t).2[i]? = some { r with status := "vencida" })
    ∧ (r.fecha_de_vencimiento < startOfToday clk →
        (checkOverdueInvoices clk t).2[i]? = some { r with status := "vencida" }) := by
  have hrow : (checkOverdueInvoices clk t).2[i]?
      = some (if overdueAt (startOfToday clk) r then { r with status := "vencida" } else r) := by
    rw [checkOverdueInvoices_eq]
    simp only [List.getElem?_map, hi, Option.map_some']
  have hkeep : ¬ r.fecha_de_vencimiento < startOfToday clk →
      (checkOverdueInvoices clk t).2[i]? = some r := by
    intro h
    rw [hrow]
    simp [overdueAt, h]
  have hprom : r.fecha_de_vencimiento < startOfToday clk →
      (checkOverdueInvoices clk t).2[i]? = some { r with status := "vencida" } := by
    intro h
    rw [hrow]
    simp [overdueAt, h, hlive, hpend]
  refine ⟨?_, ?_, ?_, hprom⟩
  · intro h
    exact hkeep (not_lt.mpr ((within_today_iff clk _).mpr h).1)
  · intro h
    exact hkeep (not_lt.mpr h.1)
  · intro h
    exact hprom ((lt_startOfToday_iff clk _).mpr h)

/-- Witness for C7: on 2025-01-01 (UTC) a pending invoice due that day at 23:59:59.999
stays pending, and on 2025-01-02 a pending invoice due 2025-01-01 at 00:00:01 is promoted. -/
theorem overdue_day_boundary_witness :
    (checkOverdueInvoices clockJan1 [{ f001 with fecha_de_vencimiento := 1735775999999 }]).2[0]?
        = some { f001 with fecha_de_vencimiento := 1735775999999 }
    ∧ (checkOverdueInvoices clockJan2 [{ f001 with fecha_de_vencimiento := 1735689601000 }]).2[0]?
        = some { f001 with fecha_de_vencimiento := 1735689601000, status := "vencida" } :=
  ⟨(overdue_day_boundary clockJan1 [{ f001 with fecha_de_vencimiento := 1735775999999 }] 0
      { f001 with fecha_de_vencimiento := 1735775999999 } (by rfl) (by rfl) (by rfl)).1
      (by decide),
   (overdue_day_boundary clockJan2 [{ f001 with fecha_de_vencimiento := 1735689601000 }] 0
      { f001 with fecha_de_vencimiento := 1735689601000 } (by rfl) (by rfl) (by rfl)).2.2.1
      (by decide)⟩

/-- C8: `checkDueTodayInvoices` sends no notification at all. The query asks for
`include: [{ model: User }]` without alias while `Factura.associate` declares the
association under the alias "user"; the eager-loading error is caught by the job and
nothing is handed to the transport. At 2025-01-01 08:00 UTC invoice F-001 is pending, not
deleted and due today, its owner has an address, and no message is sent; with the
association declared without alias the same run would send one. -/
theorem checkDueTodayInvoices_sends_nothing (tr : Transport) (clk : Clock) (t : Table)
    (users : List User) :
    checkDueTodayInvoices tr clk t users = []
    ∧ (dueTodayWhere clockJan1 f001 = true ∧ f001.deletedAt = none
        ∧ userA.id = f001.userId ∧ userA.email ≠ ""
        ∧ checkDueTodayInvoices tr clockJan1 [f001] [userA] = [])
    ∧ checkDueTodayInvoicesWith unaliasedAssociations
        tr clockJan1 [f001] [userA]
        = [{ recipient := "a@example.com", factura := "F-001", total := 10000 }] := by
  have hgen : ∀ (clk : Clock) (t : Table) (users : List User),
      checkDueTodayInvoices tr clk t users = [] := by
    intro clk t users
    rfl
  refine ⟨hgen clk t users, ⟨by decide, by rfl, by rfl, by decide, hgen _ _ _⟩, ?_⟩
  have hfind : Factura.findAll unaliasedAssociations
      [f001] [userA] (dueTodayWhere clockJan1) { model := "User", asName := none }
      = .ok [{ row := f001, included := [("User", some userA)] }] := by rfl
  simp only [checkDueTodayInvoicesWith, hfind, notifyLoop_eq]
  decide

/-- C9: a failed notification does not stop the loop. Whatever the transport answers,
the loop of `checkDueTodayInvoices` ends normally after handing the transport one message
for every found invoice whose owner address is truthy, in order; so the messages attempted
by the loop, and by the whole job under any association table, are the same for any two
transports. -/
theorem notification_failures_isolated (assocs : List Association) (tr1 tr2 : Transport)
    (clk : Clock) (t : Table) (users : List User) (invoices : List Loaded) :
    notifyLoop tr1 invoices [] = (.ok (), invoices.filterMap mailFor)
    ∧ (notifyLoop tr1 invoices []).2 = (notifyLoop tr2 invoices []).2
    ∧ checkDueTodayInvoicesWith assocs tr1 clk t users
        = checkDueTodayInvoicesWith assocs tr2 clk t users := by
  refine ⟨by simp [notifyLoop_eq], by simp [notifyLoop_eq], ?_⟩
  unfold checkDueTodayInvoicesWith
  cases Factura.findAll assocs t users (dueTodayWhere clk) { model := "User", asName := none }
    <;> simp [notifyLoop_eq]

/-- C10: a status-only PATCH changes the status and nothing else. For a live row `r` of a
table with unique primary keys, called by its owner with a body whose `status` is one of
the four status strings and which has no `fecha_de_pago`, `updateFacturaStatus` answers 200
with the record `r` with only its status replaced, and the table afterwards differs
from the table before in that row only. -/
theorem patch_status_keeps_other_fields (lib : Lib) (t : Table) (r : Factura) (s : String)
    (body : Obj JsVal) (hr : r ∈ t) (hlive : r.deletedAt = none)
    (hkey : (t.map (fun x => x.id)).Nodup) (hs : s ∈ statusValues)
    (hstatus : body.get "status" = some (JsVal.str s))
    (hpago : body.get "fecha_de_pago" = none) :
    ∃ saved : Factura,
      updateFacturaStatus lib t r.userId r.id body
        = (⟨200, .successData saved⟩, t.map (fun x => if x = r then saved else x))
      ∧ saved = { r with status := s }
      ∧ saved.status = s ∧ saved.factura = r.factura ∧ saved.total = r.total
      ∧ saved.fecha_de_vencimiento = r.fecha_de_vencimiento
      ∧ saved.fecha_de_pago = r.fecha_de_pago ∧ saved.id = r.id ∧ saved.userId = r.userId := by
  refine ⟨{ r with status := s }, ?_, rfl, rfl, rfl, rfl, rfl, rfl, rfl, rfl⟩
  have hval : updateFacturaStatusValidator body = [] := by
    simp [updateFacturaStatusValidator, checkField, hstatus, stringify_str, hs]
  have hfind := findOne_owned t r hr hlive hkey
  have happly : applyStatusUpdate lib r body = .ok { r with status := s } := by
    simp [applyStatusUpdate, hstatus, hpago, acceptStatus, hs, Except.map, bind, Except.bind,
      pure, Except.pure]
  have hsave := save_eq_map t r { r with status := s } hr rfl hkey
  simp only [updateFacturaStatus, hval, hfind, happly, hsave]
  simp

/-- Witness for C10: invoice F-001 patched to "pagada" by its owner. -/
theorem patch_status_keeps_other_fields_witness :
    ∃ saved : Factura,
      updateFacturaStatus demoLib [f001] f001.userId f001.id [("status", .str "pagada")]
        = (⟨200, .successData saved⟩, [f001].map (fun x => if x = f001 then saved else x))
      ∧ saved = { f001 with status := "pagada" }
      ∧ saved.status = "pagada" ∧ saved.factura = f001.factura ∧ saved.total = f001.total
      ∧ saved.fecha_de_vencimiento = f001.fecha_de_vencimiento
      ∧ saved.fecha_de_pago = f001.fecha_de_pago ∧ saved.id = f001.id
      ∧ saved.userId = f001.userId :=
  patch_status_keeps_other_fields demoLib [f001] f001 "pagada" [("status", .str "pagada")]
    (by simp) (by rfl) (by simp) (by decide) (by rfl) (by rfl)

/-- C11, as it stands in the code: the PATCH route requires `status`. A body that carries
`fecha_de_pago` alone, with a value the column accepts, is answered 400 by the validator
and nothing is written. -/
theorem status_patch_paid_date_alone_rejected :
    acceptPaidDate demoLib (JsVal.str "2025-01-05") = .ok (some 1736035200000)
    ∧ updateFacturaStatus demoLib [f001] "A" "f-1" [("fecha_de_pago", JsVal.str "2025-01-05")]
        = (⟨400, .validationErrors
            [⟨"status", "Status must be pendiente, pagada, vencida, or anulada"⟩]⟩, [f001]) := by
  constructor <;> rfl

/-- C11, amended: a PATCH whose body carries a valid `status`, with or without a
`fecha_de_pago` that the column accepts, succeeds on an owned live record and applies
exactly the supplied fields: the status is the supplied one, the payment date is the
supplied one or, when absent, the prior one, and nothing else changes. A body without
`status` is answered 400 and the table is unchanged. -/
theorem status_patch_applies_supplied_fields (lib : Lib) (t : Table) (r : Factura)
    (s : String) (body : Obj JsVal) (hr : r ∈ t) (hlive : r.deletedAt = none)
    (hkey : (t.map (fun x => x.id)).Nodup) (hs : s ∈ statusValues)
    (hstatus : body.get "status" = some (JsVal.str s))
    (hpago : ∀ v, body.get "fecha_de_pago" = some v → ∃ d, acceptPaidDate lib v = .ok d) :
    (∃ saved : Factura,
      updateFacturaStatus lib t r.userId r.id body
        = (⟨200, .successData saved⟩, t.map (fun x => if x = r then saved else x))
      ∧ saved.status = s
      ∧ (body.get "fecha_de_pago" = none → saved.fecha_de_pago = r.fecha_de_pago)
      ∧ (∀ v, body.get "fecha_de_pago" = some v →
          acceptPaidDate lib v = .ok saved.fecha_de_pago)
      ∧ saved.factura = r.factura ∧ saved.total = r.total
      ∧ saved.fecha_de_vencimiento = r.fecha_de_vencimiento
      ∧ saved.id = r.id ∧ saved.userId = r.userId ∧ saved.deletedAt = r.deletedAt)
    ∧ (∀ body2 : Obj JsVal, body2.get "status" = none →
        ∃ errs, errs ≠ [] ∧
          updateFacturaStatus lib t r.userId r.id body2 = (⟨400, .validationErrors errs⟩, t)) := by
  have hval := statusValidator_ok body s hs hstatus
  constructor
  · rcases hp : body.get "fecha_de_pago" with _ | v
    · refine ⟨{ r with status := s }, ?_, rfl, fun _ => rfl, ?_, rfl, rfl, rfl, rfl, rfl, rfl⟩
      · apply updateFacturaStatus_ok lib t r { r with status := s } body hr hlive hkey hval _
          rfl
        simp [applyStatusUpdate, hstatus, hp, acceptStatus, hs, Except.map, bind, Except.bind,
          pure, Except.pure]
      · intro v hv
        cases hv
    · obtain ⟨d, hd⟩ := hpago v hp
      refine ⟨{ r with status := s, fecha_de_pago := d }, ?_, rfl, ?_, ?_, rfl, rfl, rfl, rfl,
        rfl, rfl⟩
      · apply updateFacturaStatus_ok lib t r { r with status := s, fecha_de_pago := d } body
          hr hlive hkey hval _ rfl
        simp [applyStatusUpdate, hstatus, hp, hd, acceptStatus, hs, Except.map, bind,
          Except.bind, pure, Except.pure]
      · intro h
        cases h
      · intro v2 hv2
        cases hv2
        exact hd
  · intro body2 h2
    have hmiss := statusValidator_missing body2 h2
    refine ⟨updateFacturaStatusValidator body2, ?_, ?_⟩
    · rw [hmiss]
      exact List.cons_ne_nil _ _
    · simp [updateFacturaStatus, hmiss]

/-- Witness for C11 amended: invoice F-001 patched to "pagada" with the payment date
2025-01-05. -/
theorem status_patch_applies_supplied_fields_witness :
    (∃ saved : Factura,
      updateFacturaStatus demoLib [f001] f001.userId f001.id
          [("status", .str "pagada"), ("fecha_de_pago", .str "2025-01-05")]
        = (⟨200, .successData saved⟩, [f001].map (fun x => if x = f001 then saved else x))
      ∧ saved.status = "pagada"
      ∧ (Obj.get [("status", JsVal.str "pagada"), ("fecha_de_pago", .str "2025-01-05")]
            "fecha_de_pago" = none → saved.fecha_de_pago = f001.fecha_de_pago)
      ∧ (∀ v, Obj.get [("status", JsVal.str "pagada"), ("fecha_de_pago", .str "2025-01-05")]
            "fecha_de_pago" = some v → acceptPaidDate demoLib v = .ok saved.fecha_de_pago)
      ∧ saved.factura = f001.factura ∧ saved.total = f001.total
      ∧ saved.fecha_de_vencimiento = f001.fecha_de_vencimiento
      ∧ saved.id = f001.id ∧ saved.userId = f001.userId ∧ saved.deletedAt = f001.deletedAt)
    ∧ (∀ body2 : Obj JsVal, body2.get "status" = none →
        ∃ errs, errs ≠ [] ∧
          updateFacturaStatus demoLib [f001] f001.userId f001.id body2
            = (⟨400, .validationErrors errs⟩, [f001])) :=
  status_patch_applies_supplied_fields demoLib [f001] f001 "pagada"
    [("status", .str "pagada"), ("fecha_de_pago", .str "2025-01-05")]
    (by simp) (by rfl) (by simp) (by decide) (by rfl)
    (by
      intro v hv
      have h : v = JsVal.str "2025-01-05" := by
        have h2 : Obj.get [("status", JsVal.str "pagada"), ("fecha_de_pago", .str "2025-01-05")]
            "fecha_de_pago" = some (JsVal.str "2025-01-05") := by rfl
        rw [h2] at hv
        exact (Option.some.inj hv).symm
      exact ⟨some 1736035200000, by rw [h]; rfl⟩)

/-- C12: a PUT touches the supplied fields only. For an owned live record and a body that
passes the validator and whose supplied values the columns accept, `updateFactura`
answers 200 with the saved record; each of `factura`, `total`, `fecha_de_vencimiento`,
`status` and `fecha_de_pago` is the accepted supplied value when the body carries the
field and the prior value when it does not; `id`, `userId` and `deletedAt` are the prior
ones; and no other row of the table changes. -/
theorem put_sets_supplied_fields (lib : Lib) (t : Table) (r : Factura) (body : Obj JsVal)
    (hr : r ∈ t) (hlive : r.deletedAt = none) (hkey : (t.map (fun x => x.id)).Nodup)
    (hval : updateFacturaValidator lib body = [])
    (hlabel : ∀ v, body.get "factura" = some v → ∃ x, acceptLabel lib v = .ok x)
    (htotal : ∀ v, body.get "total" = some v → ∃ x, acceptTotal lib v = .ok x)
    (hdue : ∀ v, body.get "fecha_de_vencimiento" = some v → ∃ x, acceptDueDate lib v = .ok x)
    (hstatus : ∀ v, body.get "status" = some v → ∃ x, acceptStatus v = .ok x)
    (hpago : ∀ v, body.get "fecha_de_pago" = some v → ∃ x, acceptPaidDate lib v = .ok x) :
    ∃ saved : Factura,
      updateFactura lib t r.userId r.id body
        = (⟨200, .successData saved⟩, t.map (fun x => if x = r then saved else x))
      ∧ saved.id = r.id ∧ saved.userId = r.userId ∧ saved.deletedAt = r.deletedAt
      ∧ (body.get "factura" = none → saved.factura = r.factura)
      ∧ (∀ v, body.get "factura" = some v → acceptLabel lib v = .ok saved.factura)
      ∧ (body.get "total" = none → saved.total = r.total)
      ∧ (∀ v, body.get "total" = some v → acceptTotal lib v = .ok saved.total)
      ∧ (body.get "fecha_de_vencimiento" = none →
          saved.fecha_de_vencimiento = r.fecha_de_vencimiento)
      ∧ (∀ v, body.get "fecha_de_vencimiento" = some v →
          acceptDueDate lib v = .ok saved.fecha_de_vencimiento)
      ∧ (body.get "status" = none → saved.status = r.status)
      ∧ (∀ v, body.get "status" = some v → acceptStatus v = .ok saved.status)
      ∧ (body.get "fecha_de_pago" = none → saved.fecha_de_pago = r.fecha_de_pago)
      ∧ (∀ v, body.get "fecha_de_pago" = some v →
          acceptPaidDate lib v = .ok saved.fecha_de_pago) := by
  obtain ⟨a, ha⟩ : ∃ a, (match body.get "factura" with
      | some v => acceptLabel lib v
      | none => .ok r.factura) = .ok a := by
    rcases h : body.get "factura" with _ | v
    · exact ⟨_, rfl⟩
    · exact hlabel v h
  obtain ⟨b, hb⟩ : ∃ b, (match body.get "total" with
      | some v => acceptTotal lib v
      | none => .ok r.total) = .ok b := by
    rcases h : body.get "total" with _ | v
    · exact ⟨_, rfl⟩
    · exact htotal v h
  obtain ⟨c, hc⟩ : ∃ c, (match body.get "fecha_de_vencimiento" with
      | some v => acceptDueDate lib v
      | none => .ok r.fecha_de_vencimiento) = .ok c := by
    rcases h : body.get "fecha_de_vencimiento" with _ | v
    · exact ⟨_, rfl⟩
    · exact hdue v h
  obtain ⟨d, hd⟩ : ∃ d, (match body.get "status" with
      | some v => acceptStatus v
      | none => .ok r.status) = .ok d := by
    rcases h : body.get "status" with _ | v
    · exact ⟨_, rfl⟩
    · exact hstatus v h
  obtain ⟨e, he⟩ : ∃ e, (match body.get "fecha_de_pago" with
      | some v => acceptPaidDate lib v
      | none => .ok r.fecha_de_pago) = .ok e := by
    rcases h : body.get "fecha_de_pago" with _ | v
    · exact ⟨_, rfl⟩
    · exact hpago v h
  have happly : applyUpdate lib r body
      = .ok { r with factura := a, total := b, fecha_de_vencimiento := c, status := d,
                     fecha_de_pago := e } := by
    unfold applyUpdate
    rcases h1 : body.get "factura" with _ | v1 <;> rw [h1] at ha <;>
    rcases h2 : body.get "total" with _ | v2 <;> rw [h2] at hb <;>
    rcases h3 : body.get "fecha_de_vencimiento" with _ | v3 <;> rw [h3] at hc <;>
    rcases h4 : body.get "status" with _ | v4 <;> rw [h4] at hd <;>
    rcases h5 : body.get "fecha_de_pago" with _ | v5 <;> rw [h5] at he <;>
    simp only at ha hb hc hd he <;>
    first
      | (simp_all [Except.map, bind, Except.bind, pure, Except.pure]; done)
      | (cases r; simp_all [Except.map, bind, Except.bind, pure, Except.pure])
  refine ⟨{ r with factura := a, total := b, fecha_de_vencimiento := c, status := d,
                   fecha_de_pago := e },
    updateFactura_ok lib t r _ body hr hlive hkey hval happly rfl, rfl, rfl, rfl,
    ?_, ?_, ?_, ?_, ?_, ?_, ?_, ?_, ?_, ?_⟩
  · intro h; rw [h] at ha; cases ha; rfl
  · intro v h; rw [h] at ha; exact ha
  · intro h; rw [h] at hb; cases hb; rfl
  · intro v h; rw [h] at hb; exact hb
  · intro h; rw [h] at hc; cases hc; rfl
  · intro v h; rw [h] at hc; exact hc
  · intro h; rw [h] at hd; cases hd; rfl
  · intro v h; rw [h] at hd; exact hd
  · intro h; rw [h] at he; cases he; rfl
  · intro v h; rw [h] at he; exact he

/-- Witness for C12: a PUT on invoice F-001 that supplies a new amount and a null payment
date. -/
theorem put_sets_supplied_fields_witness :
    ∃ saved : Factura,
      updateFactura demoLib [f001] f001.userId f001.id
          [("total", .num 7), ("fecha_de_pago", .null)]
        = (⟨200, .successData saved⟩, [f001].map (fun x => if x = f001 then saved else x))
      ∧ saved.id = f001.id ∧ saved.userId = f001.userId ∧ saved.deletedAt = f001.deletedAt
      ∧ saved.factura = f001.factura
      ∧ acceptTotal demoLib (.num 7) = .ok saved.total :=
  let ⟨saved, h, hid, huser, hdel, hlabel, _, _, htotal, _⟩ :=
    put_sets_supplied_fields demoLib [f001] f001 [("total", .num 7), ("fecha_de_pago", .null)]
      (by simp) (by rfl) (by simp) (by rfl)
      (by intro v hv; simp [Obj.get] at hv)
      (by intro v hv; simp [Obj.get] at hv; subst hv; exact ⟨_, rfl⟩)
      (by intro v hv; simp [Obj.get] at hv)
      (by intro v hv; simp [Obj.get] at hv)
      (by intro v hv; simp [Obj.get] at hv; subst hv; exact ⟨_, rfl⟩)
  ⟨saved, h, hid, huser, hdel, hlabel (by rfl), htotal _ (by rfl)⟩

/-- C13: every manual status transition is allowed. Whatever the current status of an
owned live record, a PATCH (and likewise a PUT) that supplies only a status `s2` among the
four answers 200 and leaves the record with status `s2` and all else as before; so each
of the sixteen pairs of current and new status goes through. -/
theorem any_status_transition (lib : Lib) (t : Table) (r : Factura) (s2 : String)
    (hr : r ∈ t) (hlive : r.deletedAt = none) (hkey : (t.map (fun x => x.id)).Nodup)
    (hs2 : s2 ∈ statusValues) :
    updateFacturaStatus lib t r.userId r.id [("status", JsVal.str s2)]
        = (⟨200, .successData { r with status := s2 }⟩,
           t.map (fun x => if x = r then { r with status := s2 } else x))
    ∧ updateFactura lib t r.userId r.id [("status", JsVal.str s2)]
        = (⟨200, .successData { r with status := s2 }⟩,
           t.map (fun x => if x = r then { r with status := s2 } else x)) := by
  have hget : Obj.get [("status", JsVal.str s2)] "status" = some (JsVal.str s2) := by
    simp [Obj.get]
  constructor
  · apply updateFacturaStatus_ok lib t r { r with status := s2 } _ hr hlive hkey
      (statusValidator_ok _ s2 hs2 hget) _ rfl
    simp [applyStatusUpdate, Obj.get, acceptStatus, hs2, Except.map, bind, Except.bind, pure,
      Except.pure]
  · apply updateFactura_ok lib t r { r with status := s2 } _ hr hlive hkey _ _ rfl
    · simp [updateFacturaValidator, checkField, Obj.get, stringify_str, hs2]
    · simp [applyUpdate, Obj.get, acceptStatus, hs2, Except.map, bind, Except.bind, pure,
        Except.pure]

/-- Witness for C13: a voided invoice set back to pending. -/
theorem any_status_transition_witness :
    updateFacturaStatus demoLib [{ f001 with status := "anulada" }] "A" "f-1"
        [("status", JsVal.str "pendiente")]
        = (⟨200, .successData f001⟩,
           [{ f001 with status := "anulada" }].map
             (fun x => if x = { f001 with status := "anulada" } then f001 else x))
    ∧ updateFactura demoLib [{ f001 with status := "anulada" }] "A" "f-1"
        [("status", JsVal.str "pendiente")]
        = (⟨200, .successData f001⟩,
           [{ f001 with status := "anulada" }].map
             (fun x => if x = { f001 with status := "anulada" } then f001 else x)) :=
  any_status_transition demoLib [{ f001 with status := "anulada" }]
    { f001 with status := "anulada" } "pendiente"
    (by simp) (by rfl) (by simp) (by decide)

/-- C14: creation is scoped to the caller and defaults the status. For a create request
that passes the validator, carries no status or one of the four status strings, and whose
values the store accepts (`Factura.create` returns the created row), `createFactura`
answers 201 with the created row and the table gains that row; the values handed to the
store, and the row, carry the caller's id as `userId` whatever the body holds; the status
is the supplied one, or "pendiente" when the body has none. -/
theorem createFactura_scoped_default (lib : Lib) (newId : String) (t t2 : Table)
    (u : String) (body : Obj JsVal) (row : Factura)
    (hval : createFacturaValidator lib body = [])
    (hstatus : body.get "status" = none
      ∨ ∃ s ∈ statusValues, body.get "status" = some (JsVal.str s))
    (hstore : Factura.create lib newId t (createFacturaValues u body) = .ok (row, t2)) :
    createFactura lib newId t u body = (⟨201, .successData row⟩, t ++ [row])
    ∧ (createFacturaValues u body).userId = u ∧ row.userId = u
    ∧ (createFacturaValues u body).status = JsVal.str row.status
    ∧ (body.get "status" = none → row.status = "pendiente")
    ∧ (∀ s, body.get "status" = some (JsVal.str s) → row.status = s) := by
  obtain ⟨huser, _, _, hst, ht2⟩ := create_ok_inv lib newId t t2 _ row hstore
  obtain ⟨hv, _⟩ := acceptStatus_inv _ _ hst
  refine ⟨?_, rfl, huser, hv, ?_, ?_⟩
  · simp [createFactura, hval, hstore, ht2]
  · intro hnone
    simp only [createFacturaValues, hnone] at hv
    exact (JsVal.str.inj hv).symm
  · intro s hsome
    rcases hstatus with hnone | ⟨s0, hs0, hsome0⟩
    · rw [hnone] at hsome
      cases hsome
    · have hne : s0 ≠ "" := by
        intro h
        rw [h] at hs0
        exact absurd hs0 (by decide)
      rw [hsome0] at hsome
      have hss : s0 = s := JsVal.str.inj (Option.some.inj hsome)
      simp only [createFacturaValues, hsome0, JsVal.truthy, ne_eq, hne, not_false_eq_true,
        decide_True, if_true] at hv
      rw [← hss]
      exact (JsVal.str.inj hv).symm

/-- Witness for C14: caller "U" creates F-003 without status; and with the status
"pagada" next to a `userId` of its own in the body, the row still belongs to "U". -/
theorem createFactura_scoped_default_witness :
    createFactura demoLib "f-3" [f001] "U" createBodyPlain
        = (⟨201, .successData f003⟩, [f001] ++ [f003])
    ∧ createFactura demoLib "f-3" [f001] "U"
          (createBodyPlain ++ [("userId", .str "Z"), ("status", .str "pagada")])
        = (⟨201, .successData { f003 with status := "pagada" }⟩,
           [f001] ++ [{ f003 with status := "pagada" }]) :=
  ⟨(createFactura_scoped_default demoLib "f-3" [f001] ([f001] ++ [f003]) "U" createBodyPlain
      f003 (by rfl) (Or.inl (by rfl)) (by rfl)).1,
   (createFactura_scoped_default demoLib "f-3" [f001]
      ([f001] ++ [{ f003 with status := "pagada" }]) "U"
      (createBodyPlain ++ [("userId", .str "Z"), ("status", .str "pagada")])
      { f003 with status := "pagada" }
      (by rfl) (Or.inr ⟨"pagada", by decide, by rfl⟩) (by rfl)).1⟩

/-- C15: an array escapes the create check. The three chains of
`createFacturaValidator` run their test on each item of an array and on nothing for the
empty array. So a create request whose `total` is an array with no item that fails
`isNumeric` (`[]` for one), next to a non-empty label and an ISO-8601 due date, passes
the validator: `createFactura` does not answer 400, it calls `Factura.create` with the
array as `total` and answers with the store's outcome, which is 500 "Server error" once
the column does not read the array as a decimal. For fields that are not arrays the
check holds: a missing or empty label, a missing or non-numeric amount, or a missing or
non-ISO-8601 due date (the library test rejecting the empty string) is answered 400 with
a non-empty error list, the table as before and `Factura.create` not reached. -/
theorem create_array_amount_reaches_store (lib : Lib) (newId : String) (t : Table)
    (u : String) (body : Obj JsVal) (label due : String) (items : List JsVal)
    (hlabel : body.get "factura" = some (JsVal.str label)) (hne : label ≠ "")
    (hdue : body.get "fecha_de_vencimiento" = some (JsVal.str due))
    (hiso : lib.isISO8601 due = true)
    (htotal : body.get "total" = some (JsVal.arr items))
    (hitems : ∀ x ∈ items, isNumeric (stringify (some x)) = true) :
    createFacturaValidator lib body = []
    ∧ (createFacturaValues u body).total = some (JsVal.arr items)
    ∧ createFactura lib newId t u body
        = (match Factura.create lib newId t (createFacturaValues u body) with
          | .ok (newFactura, t2) => (⟨201, .successData newFactura⟩, t2)
          | .error message => (⟨500, .errorDetail "Server error" message⟩, t))
    ∧ (createFactura lib newId t u body).1.code ≠ 400
    ∧ (lib.toDecimal (JsVal.arr items) = none →
        ∃ detail, Factura.create lib newId t (createFacturaValues u body) = .error detail
          ∧ createFactura lib newId t u body
            = (⟨500, .errorDetail "Server error" detail⟩, t))
    ∧ (∀ body2 : Obj JsVal, lib.isISO8601 "" = false →
        (body2.get "factura" = none
          ∨ ((∀ xs, body2.get "factura" ≠ some (JsVal.arr xs))
              ∧ stringify (body2.get "factura") = "")
          ∨ body2.get "total" = none
          ∨ ((∀ xs, body2.get "total" ≠ some (JsVal.arr xs))
              ∧ isNumeric (stringify (body2.get "total")) = false)
          ∨ body2.get "fecha_de_vencimiento" = none
          ∨ ((∀ xs, body2.get "fecha_de_vencimiento" ≠ some (JsVal.arr xs))
              ∧ lib.isISO8601 (stringify (body2.get "fecha_de_vencimiento")) = false)) →
        ∃ errs, errs ≠ [] ∧
          createFactura lib newId t u body2 = (⟨400, .validationErrors errs⟩, t)) := by
  have hval : createFacturaValidator lib body = [] := by
    unfold createFacturaValidator
    rw [checkField_arr_pass body "total" false _ _ items htotal hitems]
    simp [checkField, hlabel, hdue, stringify_str, hne, hiso]
  have hrun : createFactura lib newId t u body
      = (match Factura.create lib newId t (createFacturaValues u body) with
        | .ok (newFactura, t2) => (⟨201, .successData newFactura⟩, t2)
        | .error message => (⟨500, .errorDetail "Server error" message⟩, t)) := by
    simp only [createFactura, hval, ne_eq, not_true_eq_false, if_false]
  refine ⟨hval, by simp [createFacturaValues, htotal], hrun, ?_, ?_, ?_⟩
  · rw [hrun]
    rcases Factura.create lib newId t (createFacturaValues u body) with e | ⟨row, t2⟩ <;> simp
  · intro hdec
    have hacc : acceptTotal lib (JsVal.arr items) = .error "Total must be a number" := by
      simp [acceptTotal, hdec]
    have hcreate : ∃ detail,
        Factura.create lib newId t (createFacturaValues u body) = .error detail := by
      unfold Factura.create
      simp only [createFacturaValues, htotal, hlabel, bind, Except.bind]
      rcases acceptLabel lib (JsVal.str label) with e | a
      · exact ⟨_, rfl⟩
      · simp only [hacc]
        exact ⟨_, rfl⟩
    obtain ⟨detail, hd⟩ := hcreate
    exact ⟨detail, hd, by rw [hrun, hd]⟩
  · intro body2 hiso0 hbad
    have hnone : ∀ field : String, body2.get field = none →
        ∀ xs, body2.get field ≠ some (JsVal.arr xs) := by
      intro field h0 xs h
      rw [h0] at h
      cases h
    have hne2 : createFacturaValidator lib body2 ≠ [] := by
      unfold createFacturaValidator
      intro h
      rw [List.append_eq_nil, List.append_eq_nil] at h
      obtain ⟨⟨h1, h2⟩, h3⟩ := h
      rcases hbad with hb | ⟨ha, hb⟩ | hb | ⟨ha, hb⟩ | hb | ⟨ha, hb⟩
      · rw [checkField_required body2 "factura" _ _ (hnone _ hb), hb] at h1
        exact absurd h1 (by decide)
      · rw [checkField_required body2 "factura" _ _ ha] at h1
        simp [hb] at h1
      · rw [checkField_required body2 "total" _ _ (hnone _ hb), hb] at h2
        exact absurd h2 (by decide)
      · rw [checkField_required body2 "total" _ _ ha] at h2
        simp [hb] at h2
      · rw [checkField_required body2 "fecha_de_vencimiento" _ _ (hnone _ hb), hb] at h3
        have h0 : stringify none = "" := rfl
        rw [h0, hiso0] at h3
        exact absurd h3 (by decide)
      · rw [checkField_required body2 "fecha_de_vencimiento" _ _ ha] at h3
        simp [hb] at h3
    exact ⟨createFacturaValidator lib body2, hne2, by simp [createFactura, hne2]⟩

/-- Witness for C15: a create request with the amount `[]` passes the validator, reaches
the store and is answered 500; the request of the integration test, with amount and due
date missing, is answered 400. -/
theorem create_array_amount_reaches_store_witness :
    (createFacturaValidator demoLib createBodyArray = []
      ∧ (createFacturaValues "A" createBodyArray).total = some (JsVal.arr [])
      ∧ (createFactura demoLib "f-9" [f001] "A" createBodyArray).1.code ≠ 400)
    ∧ (∃ detail, Factura.create demoLib "f-9" [f001] (createFacturaValues "A" createBodyArray)
          = .error detail
        ∧ createFactura demoLib "f-9" [f001] "A" createBodyArray
          = (⟨500, .errorDetail "Server error" detail⟩, [f001]))
    ∧ (∃ errs, errs ≠ [] ∧
        createFactura demoLib "f-9" [f001] "A" [("factura", .str "F-001")]
          = (⟨400, .validationErrors errs⟩, [f001])) :=
  let h := create_array_amount_reaches_store demoLib "f-9" [f001] "A" createBodyArray
    "F-001" "2025-01-01" [] (by rfl) (by decide) (by rfl) (by rfl) (by rfl)
    (by intro x hx; cases hx)
  ⟨⟨h.1, h.2.1, h.2.2.2.1⟩, h.2.2.2.2.1 (by rfl),
    h.2.2.2.2.2 [("factura", .str "F-001")] (by rfl) (Or.inr (Or.inr (Or.inl (by rfl))))⟩

/-- C16: a negative amount is answered 500, not 400. When a create request passes the
validator and the amount it carries is read by the store as a negative decimal,
`Factura.create` refuses it and `createFactura` answers 500 "Server error" with the
store's message as detail; the table is as before. -/
theorem create_negative_amount_is_500 (lib : Lib) (newId : String) (t : Table) (u : String)
    (body : Obj JsVal) (v : JsVal) (c : Int)
    (hval : createFacturaValidator lib body = [])
    (hv : body.get "total" = some v) (hc : lib.toDecimal v = some c) (hneg : c < 0) :
    ∃ detail, createFactura lib newId t u body
      = (⟨500, .errorDetail "Server error" detail⟩, t) := by
  have htotal : acceptTotal lib v = .error "Total cannot be negative" := by
    simp [acceptTotal, hc, not_le.mpr hneg]
  have hcreate : ∃ detail,
      Factura.create lib newId t (createFacturaValues u body) = .error detail := by
    unfold Factura.create
    simp only [createFacturaValues, hv, bind, Except.bind]
    rcases body.get "factura" with _ | x
    · exact ⟨_, rfl⟩
    · simp only
      rcases acceptLabel lib x with e | a
      · exact ⟨_, rfl⟩
      · simp only [htotal]
        exact ⟨_, rfl⟩
  obtain ⟨detail, hd⟩ := hcreate
  exact ⟨detail, by simp [createFactura, hval, hd]⟩

/-- Witness for C16: the amount -5 passes `isNumeric`, the column rule `min 0` refuses
it, and the answer is 500. -/
theorem create_negative_amount_is_500_witness :
    createFacturaValidator demoLib createBodyNegative = []
    ∧ createFactura demoLib "f-2" [f001] "A" createBodyNegative
        = (⟨500, .errorDetail "Server error" "Total cannot be negative"⟩, [f001])
    ∧ ∃ detail, createFactura demoLib "f-2" [f001] "A" createBodyNegative
        = (⟨500, .errorDetail "Server error" detail⟩, [f001]) :=
  ⟨by rfl, by rfl,
    create_negative_amount_is_500 demoLib "f-2" [f001] "A" createBodyNegative (.num (-5))
      (-500) (by rfl) (by rfl) (by rfl) (by decide)⟩

/-- C17: deletion is a soft delete of one record. Called by the owner of a live record,
`deleteFactura` answers 200 and sets `deletedAt` on that row alone: the table keeps its
length, every other row is as before, the record is no longer found by its owner
(`getFacturaById` answers 404) and lookups of other ids are unaffected. When the lookup
by id and caller finds nothing, the answer is 404 and the table is unchanged. -/
theorem delete_is_soft (clk : Clock) (t : Table) (r : Factura) (hr : r ∈ t)
    (hlive : r.deletedAt = none) (hkey : (t.map (fun x => x.id)).Nodup) :
    deleteFactura clk t r.userId r.id
        = (⟨200, .successMessage "Factura deleted successfully"⟩,
           t.map (fun x => if x = r then { r with deletedAt := some clk.now } else x))
    ∧ (deleteFactura clk t r.userId r.id).2.length = t.length
    ∧ { r with deletedAt := some clk.now } ∈ (deleteFactura clk t r.userId r.id).2
    ∧ getFacturaById (deleteFactura clk t r.userId r.id).2 r.userId r.id
        = ⟨404, .error "Factura not found"⟩
    ∧ (∀ id u, id ≠ r.id →
        Factura.findOne (deleteFactura clk t r.userId r.id).2 id u = Factura.findOne t id u)
    ∧ (∀ id u, Factura.findOne t id u = none →
        deleteFactura clk t u id = (⟨404, .error "Factura not found"⟩, t)) := by
  have hfind := findOne_owned t r hr hlive hkey
  have hdel : deleteFactura clk t r.userId r.id
      = (⟨200, .successMessage "Factura deleted successfully"⟩,
         t.map (fun x => if x = r then { r with deletedAt := some clk.now } else x)) := by
    simp only [deleteFactura, hfind, destroy_eq_map clk t r hr hkey]
  refine ⟨hdel, ?_, ?_, ?_, ?_, ?_⟩
  · rw [hdel]
    simp
  · rw [hdel]
    exact List.mem_map.mpr ⟨r, hr, by simp⟩
  · rw [hdel]
    have hnone : Factura.findOne
        (t.map (fun x => if x = r then { r with deletedAt := some clk.now } else x))
        r.id r.userId = none := by
      unfold Factura.findOne
      rw [List.find?_eq_none]
      intro x hx
      obtain ⟨y, hy, rfl⟩ := List.mem_map.mp hx
      by_cases hyr : y = r
      · simp [hyr]
      · have : y.id ≠ r.id := fun h => hyr (List.inj_on_of_nodup_map hkey hy hr h)
        simp [hyr, this]
    simp [getFacturaById, hnone]
  · intro id u hid
    rw [hdel]
    unfold Factura.findOne
    apply find?_map_of_rejected
    intro x _
    by_cases hxr : x = r
    · right
      subst hxr
      simp [hid.symm]
    · left
      simp [hxr]
  · intro id u hnone
    simp [deleteFactura, hnone]

/-- Witness for C17: the owner deletes F-001 from a table that also holds F-004. -/
theorem delete_is_soft_witness :
    (deleteFactura clockJan1 [f001, f004] "A" "f-1").2
        = [{ f001 with deletedAt := some 1735718400000 }, f004]
    ∧ getFacturaById (deleteFactura clockJan1 [f001, f004] "A" "f-1").2 "A" "f-1"
        = ⟨404, .error "Factura not found"⟩ :=
  ⟨by
    have h := (delete_is_soft clockJan1 [f001, f004] f001 (by simp) (by rfl) (by decide)).1
    have h2 : (deleteFactura clockJan1 [f001, f004] "A" "f-1").2
        = [f001, f004].map
            (fun x => if x = f001 then { f001 with deletedAt := some clockJan1.now } else x) :=
      congrArg Prod.snd h
    rw [h2]
    decide,
   (delete_is_soft clockJan1 [f001, f004] f001 (by simp) (by rfl) (by decide)).2.2.2.1⟩

/-- C18: the statistics are the owner's sums and count. `getFacturasStats` answers 200 with
`totalPagado` the sum of `total` over the caller's paid records, `totalPendiente` the
sum over the caller's pending records and `facturasVencidas` the number of the caller's
overdue records; each of the three is the number 0 when there is no such record, the
case in which the store's `sum` reports null. -/
theorem stats_are_owner_totals (t : Table) (u : String) :
    ∃ stats : Stats,
      getFacturasStats t u = ⟨200, .successStats stats⟩
      ∧ stats.totalPagado = ((recordsOf t u "pagada").map (fun r => r.total)).sum
      ∧ stats.totalPendiente = ((recordsOf t u "pendiente").map (fun r => r.total)).sum
      ∧ stats.facturasVencidas = ((recordsOf t u "vencida").length : Int)
      ∧ (recordsOf t u "pagada" = [] → stats.totalPagado = 0)
      ∧ (recordsOf t u "pendiente" = [] → stats.totalPendiente = 0)
      ∧ (recordsOf t u "vencida" = [] → stats.facturasVencidas = 0)
      ∧ (Factura.sum t (fun r => decide (r.userId = u) && decide (r.status = "pagada")) = none
          → stats.totalPagado = 0) := by
  have hcount : orDefault (some ((Factura.count t
      (fun r => decide (r.userId = u) && decide (r.status = "vencida")) : Nat) : Int)) 0
      = ((recordsOf t u "vencida").length : Int) := by
    simp only [orDefault, Factura.count, recordsOf]
    split
    · rename_i h; rw [h]
    · rfl
  refine ⟨_, rfl, ?_, ?_, ?_, ?_, ?_, ?_, ?_⟩
  · exact orDefault_sum t _
  · exact orDefault_sum t _
  · exact hcount
  · intro h
    have := orDefault_sum t (fun r => decide (r.userId = u) && decide (r.status = "pagada"))
    simp only [recordsOf] at h
    simp only [this, h, List.map_nil, List.sum_nil]
  · intro h
    have := orDefault_sum t (fun r => decide (r.userId = u) && decide (r.status = "pendiente"))
    simp only [recordsOf] at h
    simp only [this, h, List.map_nil, List.sum_nil]
  · intro h
    simp only [hcount, h, List.length_nil, Nat.cast_zero]
  · intro h
    simp only [h, orDefault]

/-- C19: `filter()` overlays the query onto the base restriction, reserved keys apart.
For a query object (distinct keys) and a base restriction: on a key that is not one of
page, sort, limit, fields, order, sortBy the restriction holds exactly the query's value
when the query carries the key, and the base restriction's entry otherwise; on a reserved
key it holds the base restriction's entry, never the query's, so no reserved key enters
from the query; an empty query yields exactly the base restriction; and the query string
kept by the instance is the one passed in. -/
theorem filter_overlays_query (queryString : Obj QVal) (base : Obj Cond)
    (hq : (queryString.map Prod.fst).Nodup) :
    (∀ k, k ∉ excludedFields →
      ((ApiFeatures.new queryString base).filter).queryObj.whereObj.get k
        = match queryString.get k with
          | some v => some (Cond.eq v)
          | none => base.get k)
    ∧ (∀ k, k ∈ excludedFields →
      ((ApiFeatures.new queryString base).filter).queryObj.whereObj.get k = base.get k)
    ∧ ((∀ k ∈ excludedFields, base.get k = none) → ∀ k ∈ excludedFields,
      ((ApiFeatures.new queryString base).filter).queryObj.whereObj.get k = none)
    ∧ ((ApiFeatures.new [] base).filter).queryObj.whereObj = base
    ∧ ((ApiFeatures.new queryString base).filter).queryString = queryString := by
  have hget : ∀ k, ((ApiFeatures.new queryString base).filter).queryObj.whereObj.get k
      = match (if k ∈ excludedFields then none else queryString.get k) with
        | some v => some (Cond.eq v)
        | none => base.get k := by
    intro k
    simp only [ApiFeatures.filter, ApiFeatures.new]
    rw [get_foldl_set _ (nodup_foldl_delete excludedFields queryString hq), get_foldl_delete]
  refine ⟨?_, ?_, ?_, rfl, rfl⟩
  · intro k hk
    rw [hget k]
    simp only [hk, if_false]
  · intro k hk
    rw [hget k]
    simp only [hk, if_true]
  · intro hbase k hk
    rw [hget k]
    simp only [hk, if_true]
    exact hbase k hk

/-- Witness for C19: the query `page=2&status=pagada&sortBy=total` over the base
restriction of owner "A". -/
theorem filter_overlays_query_witness :
    ((ApiFeatures.new [("page", .str "2"), ("status", .str "pagada"), ("sortBy", .str "total")]
        [("userId", .eq (.str "A"))]).filter).queryObj.whereObj
      = [("userId", .eq (.str "A")), ("status", .eq (.str "pagada"))]
    ∧ ((ApiFeatures.new [("page", .str "2"), ("status", .str "pagada"), ("sortBy", .str "total")]
        [("userId", .eq (.str "A"))]).filter).queryObj.whereObj.get "page" = none :=
  ⟨by rfl,
   (filter_overlays_query
      [("page", .str "2"), ("status", .str "pagada"), ("sortBy", .str "total")]
      [("userId", .eq (.str "A"))] (by decide)).2.2.1 (by decide) "page" (by decide)⟩

/-- C20: `paginate()` lets a negative page or limit through. The query `page=-3` gives
page -3 and, with the default limit 10, the offset -40, which is also the offset of the
query that `getFacturas` hands to the store; the query `limit=-5` gives the limit -5.
Only NaN and 0 fall back to the defaults 1 and 10. -/
theorem paginate_negative_page (clk : Clock) :
    ((ApiFeatures.new [("page", .str "-3")] []).paginate).page = some (-3)
    ∧ ((ApiFeatures.new [("page", .str "-3")] []).paginate).queryObj.offset = some (-40)
    ∧ (getFacturasFeatures clk "A" [("page", .str "-3")]).queryObj.offset = some (-40)
    ∧ ((ApiFeatures.new [("limit", .str "-5")] []).paginate).limit = some (-5)
    ∧ ((ApiFeatures.new [("page", .str "abc"), ("limit", .str "0")] []).paginate).page = some 1
    ∧ ((ApiFeatures.new [("page", .str "abc"), ("limit", .str "0")] []).paginate).limit
        = some 10 := by
  refine ⟨by rfl, by rfl, by rfl, by rfl, by rfl, by rfl⟩

/-- C21: `execute()` reports the unpaginated count and its page count. `paginate()` leaves
the instance `paged f p l` for the values `p` and `l` of its two parameters. For a page
size `l` of at least 1 and a database whose ordering only rearranges the selected rows,
with `n` the number of rows the query selects: for every page `p` from 1 on, `execute()`
returns total `n`, `totalPages = ceil(n / l)` (the least `k` with `n ≤ k * l`) and the
rows of page `p`, whatever `p` is and however many rows come back; the pages 1 to
`totalPages` one after the other are exactly the selected rows, each once; and when there
is a row at all the last page holds `n - (totalPages - 1) * l` rows. -/
theorem execute_pagination (e : Engine) (t : Table) (f : ApiFeatures) (l : Nat) (hl : 1 ≤ l)
    (hperm : ∀ o rows, (e.orderRows o rows).Perm rows) :
    f.paginate = paged f (orDefault (parseIntQ (f.queryString.get "page")) 1)
        (orDefault (parseIntQ (f.queryString.get "limit")) 10)
    ∧ (∀ p : Nat, 1 ≤ p →
      (paged f p l).execute e t
        = .ok { data := pageRows (selectedRows e t f.queryObj) p l
                total := (selectedRows e t f.queryObj).length
                totalPages := some (ceilDiv (selectedRows e t f.queryObj).length l)
                currentPage := some p })
    ∧ ((ceilDiv (selectedRows e t f.queryObj).length l - 1) * l
          < (selectedRows e t f.queryObj).length
        ∧ ((selectedRows e t f.queryObj).length : Int)
          ≤ ceilDiv (selectedRows e t f.queryObj).length l * l)
    ∧ (List.range (ceilDiv (selectedRows e t f.queryObj).length l).toNat).flatMap
          (fun i => pageRows (selectedRows e t f.queryObj) (i + 1) l)
        = selectedRows e t f.queryObj
    ∧ (selectedRows e t f.queryObj).Perm
        (t.filter (fun r => decide (r.deletedAt = none)
          && e.matchesWhere f.queryObj.whereObj r))
    ∧ (0 < (selectedRows e t f.queryObj).length →
        (pageRows (selectedRows e t f.queryObj)
            (ceilDiv (selectedRows e t f.queryObj).length l).toNat l).length
          = (selectedRows e t f.queryObj).length
            - ((ceilDiv (selectedRows e t f.queryObj).length l).toNat - 1) * l) := by
  generalize hms : selectedRows e t f.queryObj = ms
  have hspec := ceilDiv_spec (ms.length : Int) (l : Int) (by exact_mod_cast hl)
  have hl1 : (1 : Int) ≤ (l : Int) := by exact_mod_cast hl
  have htp0 : 0 ≤ ceilDiv (ms.length : Int) (l : Int) := by
    by_contra hneg
    have h1 : ceilDiv (ms.length : Int) (l : Int) * l ≤ -1 * l := by
      apply Int.mul_le_mul_of_nonneg_right
      · omega
      · omega
    have h2 : (0 : Int) ≤ (ms.length : Int) := Int.natCast_nonneg _
    omega
  have hK : (((ceilDiv (ms.length : Int) (l : Int)).toNat : Nat) : Int)
      = ceilDiv (ms.length : Int) (l : Int) := Int.toNat_of_nonneg htp0
  generalize hk : (ceilDiv (ms.length : Int) (l : Int)).toNat = K at hK
  have hcover : ms.length ≤ K * l := by
    have h := hspec.2
    rw [← hK] at h
    exact_mod_cast h
  refine ⟨rfl, ?_, hspec, ?_, ?_, ?_⟩
  · intro p hp
    rw [← hms]
    exact execute_paged e t f p l hp hl hperm
  · rw [pages_bind, List.take_of_length_le hcover]
  · rw [← hms]
    exact hperm _ _
  · intro hn
    have hK1 : 1 ≤ K := by
      rcases Nat.eq_zero_or_pos K with h0 | h0
      · rw [h0] at hcover
        omega
      · exact h0
    have hlow : (K - 1) * l < ms.length := by
      have h := hspec.1
      rw [← hK] at h
      have h2 : (((K - 1 : Nat) : Int)) = (K : Int) - 1 := by
        push_cast [Nat.cast_sub hK1]
        ring
      rw [← h2] at h
      exact_mod_cast h
    have hup : ms.length - (K - 1) * l ≤ l := by
      have h3 : K * l = (K - 1) * l + l := by
        conv_lhs => rw [← Nat.sub_add_cancel hK1]
        rw [Nat.add_mul, Nat.one_mul]
      omega
    simp only [pageRows, List.length_take, List.length_drop]
    omega

/-- Witness for C21: 23 selected rows in pages of 10: three pages, and page 3 holds 3
rows. -/
theorem execute_pagination_witness :
    (paged (ApiFeatures.new [] []) (3 : Nat) (10 : Nat)).execute demoEngine table23
        = .ok { data := pageRows (selectedRows demoEngine table23 (ApiFeatures.new [] []).queryObj)
                  3 10
                total := (selectedRows demoEngine table23 (ApiFeatures.new [] []).queryObj).length
                totalPages := some (ceilDiv
                  (selectedRows demoEngine table23 (ApiFeatures.new [] []).queryObj).length
                  (10 : Nat))
                currentPage := some (3 : Nat) }
    ∧ (selectedRows demoEngine table23 (ApiFeatures.new [] []).queryObj).length = 23
    ∧ ceilDiv (23 : Nat) (10 : Nat) = 3
    ∧ (pageRows (selectedRows demoEngine table23 (ApiFeatures.new [] []).queryObj) 3 10).length
        = 3 :=
  ⟨(execute_pagination demoEngine table23 (ApiFeatures.new [] []) 10 (by decide)
      (fun _ rows => List.Perm.refl rows)).2.1 3 (by decide),
    by rfl, by rfl, by rfl⟩

/-- C22, as it stands in the code: the window is not always that of the supplied year and
month. A year from 0 to 99 is read by `new Date(year, ...)` as 1900 + year, so the query
`year=50&month=1` restricts the due date to January 1950, not to January of the year 50;
and with `year=2025&month=1&fecha_de_vencimiento=2025-06-01` the restriction handed to
the store is the equality with the query's own value, not January 2025. -/
theorem month_window_not_for_every_query :
    (getFacturasWhere clockJan1 "A" [("year", .str "50"), ("month", .str "1")]).get
        "fecha_de_vencimiento" = some (monthWindow clockJan1 1950 1)
    ∧ monthWindow clockJan1 1950 1 ≠ monthWindow clockJan1 50 1
    ∧ (getFacturasWhere clockJan1 "A"
        [("year", .str "2025"), ("month", .str "1"),
         ("fecha_de_vencimiento", .str "2025-06-01")]).get "fecha_de_vencimiento"
        = some (Cond.eq (.str "2025-06-01"))
    ∧ Cond.eq (.str "2025-06-01") ≠ monthWindow clockJan1 2025 1 := by
  refine ⟨by rfl, by decide, by rfl, by decide⟩

/-- C22, amended: the due-date window of `getFacturas`. For a query without a
`fecha_de_vencimiento` parameter of its own, a year `y` outside 0..99 and a month `m` in
1..12: with year and month supplied the restriction is the range from day 1 of month `m`
of year `y` at 00:00:00.000 to the last day of that month at 23:59:59.999 (local time,
clipped to the range of `Date`); with the month absent it is 1 January 00:00:00.000 to
31 December 23:59:59.999 of `y`; with the month supplied and the year absent the year is
the current one. The last day is the 28th to 31st by the leap-year rule, and the day after
it is day 1 of the following month. -/
theorem month_window_restriction (clk : Clock) (u : String) (query : Obj QVal) (y m : Int)
    (hfecha : query.get "fecha_de_vencimiento" = none)
    (hy : ¬ (0 ≤ y ∧ y ≤ 99)) (h1 : 1 ≤ m) (h12 : m ≤ 12) :
    (parseIntQ (query.get "year") = some y → parseIntQ (query.get "month") = some m →
      (getFacturasWhere clk u query).get "fecha_de_vencimiento" = some (monthWindow clk y m))
    ∧ (parseIntQ (query.get "year") = some y → QVal.truthy (query.get "month") = false →
      (getFacturasWhere clk u query).get "fecha_de_vencimiento" = some (yearWindow clk y))
    ∧ (QVal.truthy (query.get "year") = false → parseIntQ (query.get "month") = some m →
      getFullYear clk = y →
      (getFacturasWhere clk u query).get "fecha_de_vencimiento" = some (monthWindow clk y m))
    ∧ (28 ≤ daysInMonth y m ∧ daysInMonth y m ≤ 31
      ∧ daysFromCivil (y + m / 12) (m % 12 + 1) 1
          = daysFromCivil y m (daysInMonth y m) + 1) := by
  have hbase := getFacturasWhere_get_base clk u query "fecha_de_vencimiento" (Or.inl hfecha)
  refine ⟨?_, ?_, ?_, ?_⟩
  · intro hyear hmonth
    have ty := truthy_of_parseIntQ _ _ hyear
    have tm := truthy_of_parseIntQ _ _ hmonth
    rw [hbase]
    simp only [initialWhereOf, ty, tm, Bool.or_self, if_true, hyear, hmonth, get_set_self,
      monthWindow]
    rw [newDate_month_start clk y m hy h1 h12, newDate_month_end clk y m hy h1 h12]
  · intro hyear hmonth
    have ty := truthy_of_parseIntQ _ _ hyear
    rw [hbase]
    simp only [initialWhereOf, ty, hmonth, Bool.or_false, if_true, hyear, get_set_self,
      yearWindow, Bool.false_eq_true, if_false, (newDate_year clk y hy).1,
      (newDate_year clk y hy).2]
  · intro hyear hmonth hcur
    have tm := truthy_of_parseIntQ _ _ hmonth
    rw [hbase]
    simp only [initialWhereOf, hyear, tm, Bool.false_or, if_true, Bool.false_eq_true, if_false,
      hmonth, hcur, get_set_self, monthWindow]
    rw [newDate_month_start clk y m hy h1 h12, newDate_month_end clk y m hy h1 h12]
  · refine ⟨?_, ?_, ?_⟩
    · simp only [daysInMonth]
      split_ifs <;> omega
    · simp only [daysInMonth]
      split_ifs <;> omega
    · rw [daysFromCivil_next_month y m h1 h12, daysFromCivil_day y m (daysInMonth y m)]
      omega

/-- Witness for C22 amended: February 2024 ends on the 29th; the year 2025 alone gives the
whole year; the month 3 alone gives March of the current year 2025. -/
theorem month_window_restriction_witness :
    (getFacturasWhere clockJan1 "A" [("year", .str "2024"), ("month", .str "2")]).get
        "fecha_de_vencimiento" = some (monthWindow clockJan1 2024 2)
    ∧ daysInMonth 2024 2 = 29
    ∧ (getFacturasWhere clockJan1 "A" [("year", .str "2025")]).get "fecha_de_vencimiento"
        = some (yearWindow clockJan1 2025)
    ∧ (getFacturasWhere clockJan1 "A" [("month", .str "3")]).get "fecha_de_vencimiento"
        = some (monthWindow clockJan1 2025 3) :=
  ⟨(month_window_restriction clockJan1 "A" [("year", .str "2024"), ("month", .str "2")]
      2024 2 (by rfl) (by decide) (by decide) (by decide)).1 (by rfl) (by rfl),
   by rfl,
   (month_window_restriction clockJan1 "A" [("year", .str "2025")]
      2025 1 (by rfl) (by decide) (by decide) (by decide)).2.1 (by rfl) (by rfl),
   (month_window_restriction clockJan1 "A" [("month", .str "3")]
      2025 3 (by rfl) (by decide) (by decide) (by decide)).2.2.1 (by rfl) (by rfl) (by rfl)⟩

/-- C23, as it stands in the code: a `fecha_de_vencimiento` parameter of the query
replaces the computed window. With `year=2025&fecha_de_vencimiento=2025-06-01` the
restriction handed to the store is the equality with "2025-06-01", not the year 2025. -/
theorem own_due_date_overrides_window :
    (getFacturasWhere clockJan1 "A"
        [("year", .str "2025"), ("fecha_de_vencimiento", .str "2025-06-01")]).get
        "fecha_de_vencimiento" = some (Cond.eq (.str "2025-06-01"))
    ∧ Cond.eq (.str "2025-06-01") ≠ yearWindow clockJan1 2025 := by
  constructor
  · rfl
  · decide

/-- C23, amended: `year` and `month` never appear in the restriction; when `year` or
`month` is supplied and the query has no `fecha_de_vencimiento` parameter, the due-date
restriction is the computed window (a range); a `fecha_de_vencimiento` parameter of the
query replaces that window by an equality with its value. -/
theorem window_unless_own_due_date (clk : Clock) (u : String) (query : Obj QVal)
    (hq : (query.map Prod.fst).Nodup) :
    (getFacturasWhere clk u query).get "year" = none
    ∧ (getFacturasWhere clk u query).get "month" = none
    ∧ (query.get "fecha_de_vencimiento" = none →
        QVal.truthy (query.get "year") = true ∨ QVal.truthy (query.get "month") = true →
        ∃ lo hi, (getFacturasWhere clk u query).get "fecha_de_vencimiento"
          = some (Cond.between lo hi))
    ∧ (∀ v, query.get "fecha_de_vencimiento" = some v →
        (getFacturasWhere clk u query).get "fecha_de_vencimiento" = some (Cond.eq v)) := by
  have hbaseKeys : ∀ k, k ≠ "userId" → k ≠ "fecha_de_vencimiento" →
      (initialWhereOf clk u query).get k = none := by
    intro k hk1 hk2
    simp only [initialWhereOf]
    split_ifs <;>
      simp [Obj.set, Obj.get, Ne.symm hk1, Ne.symm hk2]
  refine ⟨?_, ?_, ?_, ?_⟩
  · rw [getFacturasWhere_get_base clk u query "year" (Or.inr (Or.inl rfl))]
    exact hbaseKeys _ (by decide) (by decide)
  · rw [getFacturasWhere_get_base clk u query "month" (Or.inr (Or.inr (Or.inl rfl)))]
    exact hbaseKeys _ (by decide) (by decide)
  · intro hfecha hgiven
    rw [getFacturasWhere_get_base clk u query _ (Or.inl hfecha)]
    have hor : (QVal.truthy (query.get "year") || QVal.truthy (query.get "month")) = true := by
      rcases hgiven with h | h <;> simp [h]
    simp only [initialWhereOf, hor, if_true]
    split_ifs <;> exact ⟨_, _, get_set_self _ _ _⟩
  · intro v hv
    exact getFacturasWhere_get_query clk u query _ v hq hv (by decide) (by decide) (by decide)

/-- Witness for C23 amended: `year=2025` alone gives a range; with a
`fecha_de_vencimiento` of its own the query gets the equality. -/
theorem window_unless_own_due_date_witness :
    (getFacturasWhere clockJan1 "A" [("year", .str "2025")]).get "year" = none
    ∧ (∃ lo hi, (getFacturasWhere clockJan1 "A" [("year", .str "2025")]).get
        "fecha_de_vencimiento" = some (Cond.between lo hi))
    ∧ (getFacturasWhere clockJan1 "A"
        [("year", .str "2025"), ("fecha_de_vencimiento", .str "2025-06-01")]).get
        "fecha_de_vencimiento" = some (Cond.eq (.str "2025-06-01")) :=
  ⟨(window_unless_own_due_date clockJan1 "A" [("year", .str "2025")] (by decide)).1,
   (window_unless_own_due_date clockJan1 "A" [("year", .str "2025")] (by decide)).2.2.1
      (by rfl) (Or.inl (by rfl)),
   (window_unless_own_due_date clockJan1 "A"
      [("year", .str "2025"), ("fecha_de_vencimiento", .str "2025-06-01")] (by decide)).2.2.2
      _ (by rfl)⟩

/-- C24, as it stands in the code: the default order has a single criterion. Without
`sortBy` the order handed to the store is `[["createdAt", "DESC"]]`: one entry, none on
`id`, so rows with equal creation time have no tie-break. -/
theorem default_sort_has_no_tie_break :
    ((ApiFeatures.new [] []).sort).queryObj.order = some [(QVal.str "createdAt", "DESC")]
    ∧ (∀ o, ((ApiFeatures.new [] []).sort).queryObj.order = some o →
        o.length = 1 ∧ ∀ c ∈ o, c.1 ≠ QVal.str "id") := by
  refine ⟨by rfl, ?_⟩
  intro o ho
  have h : ((ApiFeatures.new [] []).sort).queryObj.order
      = some [(QVal.str "createdAt", "DESC")] := by rfl
  rw [h] at ho
  cases ho
  exact ⟨by rfl, by decide⟩

/-- C24, amended: when no `sortBy` is given (absent or empty), the order handed to the
store is creation time descending and nothing else; the order among rows with equal
creation time is left to the store. -/
theorem default_sort_is_createdAt_desc (f : ApiFeatures)
    (h : QVal.truthy (f.queryString.get "sortBy") = false) :
    f.sort.queryObj.order = some [(QVal.str "createdAt", "DESC")] := by
  unfold ApiFeatures.sort
  rcases hs : f.queryString.get "sortBy" with _ | v
  · rfl
  · rw [hs] at h
    simp only [h, Bool.false_eq_true, if_false]

/-- Witness for C24 amended: a query with filters and pages but no `sortBy`. -/
theorem default_sort_is_createdAt_desc_witness :
    ((ApiFeatures.new [("status", .str "pagada"), ("page", .str "2")] []).sort).queryObj.order
      = some [(QVal.str "createdAt", "DESC")] :=
  default_sort_is_createdAt_desc _ (by rfl)

/-- C25: with `sortBy` given the order is that one field. When `sortBy` is truthy the
order handed to the store is the single pair of that field and a direction: "ASC" when
`order` is "asc", "DESC" when `order` is "desc" or absent. -/
theorem sortBy_single_field (f : ApiFeatures) (v : QVal)
    (hv : f.queryString.get "sortBy" = some v) (ht : QVal.truthy (some v) = true) :
    (f.queryString.get "order" = some (QVal.str "asc") →
      f.sort.queryObj.order = some [(v, "ASC")])
    ∧ (f.queryString.get "order" = some (QVal.str "desc") →
      f.sort.queryObj.order = some [(v, "DESC")])
    ∧ (f.queryString.get "order" = none → f.sort.queryObj.order = some [(v, "DESC")]) := by
  refine ⟨?_, ?_, ?_⟩ <;> intro ho <;>
    simp [ApiFeatures.sort, hv, ht, ho]

/-- Witness for C25: `sortBy=total&order=asc`, and `sortBy=total` alone. -/
theorem sortBy_single_field_witness :
    ((ApiFeatures.new [("sortBy", .str "total"), ("order", .str "asc")] []).sort).queryObj.order
        = some [(QVal.str "total", "ASC")]
    ∧ ((ApiFeatures.new [("sortBy", .str "total")] []).sort).queryObj.order
        = some [(QVal.str "total", "DESC")] :=
  ⟨(sortBy_single_field (ApiFeatures.new [("sortBy", .str "total"), ("order", .str "asc")] [])
      (.str "total") (by rfl) (by rfl)).1 (by rfl),
   (sortBy_single_field (ApiFeatures.new [("sortBy", .str "total")] [])
      (.str "total") (by rfl) (by rfl)).2.2 (by rfl)⟩

/-- C26, as it stands in the code: no payment date is derived. Invoice F-001 has no
payment date; its owner sets the status to "pagada" without supplying one, by PATCH or by
PUT, and the saved record still has none. -/
theorem paid_without_date_stays_null :
    f001.fecha_de_pago = none
    ∧ updateFacturaStatus demoLib [f001] "A" "f-1" [("status", .str "pagada")]
        = (⟨200, .successData { f001 with status := "pagada" }⟩,
           [{ f001 with status := "pagada" }])
    ∧ updateFactura demoLib [f001] "A" "f-1" [("status", .str "pagada")]
        = (⟨200, .successData { f001 with status := "pagada" }⟩,
           [{ f001 with status := "pagada" }])
    ∧ ({ f001 with status := "pagada" } : Factura).fecha_de_pago = none := by
  refine ⟨by rfl, by rfl, by rfl, by rfl⟩

/-- C26, amended: when a PATCH or a PUT sets the status of an owned live record to
"pagada" without supplying `fecha_de_pago`, the saved record keeps the payment date it
had before, null included. -/
theorem paid_keeps_prior_payment_date (lib : Lib) (t : Table) (r : Factura)
    (hr : r ∈ t) (hlive : r.deletedAt = none) (hkey : (t.map (fun x => x.id)).Nodup) :
    ∃ saved : Factura,
      updateFacturaStatus lib t r.userId r.id [("status", JsVal.str "pagada")]
        = (⟨200, .successData saved⟩, t.map (fun x => if x = r then saved else x))
      ∧ updateFactura lib t r.userId r.id [("status", JsVal.str "pagada")]
        = (⟨200, .successData saved⟩, t.map (fun x => if x = r then saved else x))
      ∧ saved.status = "pagada" ∧ saved.fecha_de_pago = r.fecha_de_pago := by
  have hs : "pagada" ∈ statusValues := by decide
  refine ⟨{ r with status := "pagada" }, ?_, ?_, rfl, rfl⟩
  · apply updateFacturaStatus_ok lib t r { r with status := "pagada" } _ hr hlive hkey
      (statusValidator_ok _ "pagada" hs (by rfl)) _ rfl
    simp [applyStatusUpdate, Obj.get, acceptStatus, hs, Except.map, bind, Except.bind, pure,
      Except.pure]
  · apply updateFactura_ok lib t r { r with status := "pagada" } _ hr hlive hkey _ _ rfl
    · simp [updateFacturaValidator, checkField, Obj.get, stringify_str, hs]
    · simp [applyUpdate, Obj.get, acceptStatus, hs, Except.map, bind, Except.bind, pure,
        Except.pure]

/-- Witness for C26 amended: invoice F-004, paid on 2025-01-01, set to "pagada" again
keeps that date. -/
theorem paid_keeps_prior_payment_date_witness :
    ∃ saved : Factura,
      updateFacturaStatus demoLib [f001, f004] f004.userId f004.id
          [("status", JsVal.str "pagada")]
        = (⟨200, .successData saved⟩, [f001, f004].map (fun x => if x = f004 then saved else x))
      ∧ updateFactura demoLib [f001, f004] f004.userId f004.id [("status", JsVal.str "pagada")]
        = (⟨200, .successData saved⟩, [f001, f004].map (fun x => if x = f004 then saved else x))
      ∧ saved.status = "pagada" ∧ saved.fecha_de_pago = f004.fecha_de_pago :=
  paid_keeps_prior_payment_date demoLib [f001, f004] f004 (by simp) (by rfl) (by decide)

/-- C27: a store failure inside a scheduled job stays inside its callback. Whatever the
job and whether or not the store fails during the run, the callback completes normally;
when the store fails, an error line is logged and tables and outbox stay as they were.
Hence a run of the scheduler over any sequence of firings never ends early, and a firing
that follows a failed one acts on tables and outbox exactly as it would have without
it. -/
theorem job_failures_are_contained (tr : Transport) (firings : List Firing) (w : World) :
    (∀ (f : Firing) (v : World), ∃ v2, jobCallback tr f v = .ok v2
        ∧ (f.storeFault ≠ none →
            v2.table = v.table ∧ v2.users = v.users ∧ v2.outbox = v.outbox))
    ∧ (∀ (clk : Clock) (err : String) (v : World),
        jobCallback tr ⟨.overdue, clk, some err⟩ v
          = .ok { v with log := v.log ++ ["Running cron job: Check for overdue invoices...",
                                         "Cron Job Error: " ++ err] }
        ∧ jobCallback tr ⟨.dueToday, clk, some err⟩ v
          = .ok { v with log := v.log ++ ["Running cron job: Check for invoices due today...",
                                         "Cron Job Check Due Today Error: " ++ err] })
    ∧ (∃ w2, runFirings tr firings w = .ok w2)
    ∧ (∀ (f g : Firing) (v : World), f.storeFault ≠ none →
        ∃ v2 v3, runFirings tr [f, g] v = .ok v2 ∧ jobCallback tr g v = .ok v3
          ∧ v2.table = v3.table ∧ v2.users = v3.users ∧ v2.outbox = v3.outbox) := by
  refine ⟨fun f v => jobCallback_ok tr f v, ?_, ?_, ?_⟩
  · intro clk err v
    constructor <;>
      simp [jobCallback, checkOverdueInvoicesRun, checkDueTodayInvoicesRun, List.append_assoc]
  · induction firings generalizing w with
    | nil => exact ⟨w, rfl⟩
    | cons f rest ih =>
      obtain ⟨w1, h1, _⟩ := jobCallback_ok tr f w
      obtain ⟨w2, h2⟩ := ih w1
      exact ⟨w2, by simp only [runFirings, h1, h2]⟩
  · intro f g v hfault
    obtain ⟨v1, h1, hsame⟩ := jobCallback_ok tr f v
    obtain ⟨ht, hu, ho⟩ := hsame hfault
    obtain ⟨v2, h2, _⟩ := jobCallback_ok tr g v1
    obtain ⟨v3, h3, _⟩ := jobCallback_ok tr g v
    refine ⟨v2, v3, by simp only [runFirings, h1, h2], h3, ?_⟩
    exact jobCallback_congr tr g v1 v v2 v3 ht hu ho h2 h3

/-- C28: `protect` has exactly one outcome. Given that token verification throws on a
missing or empty token (as the library does), for every value of the Authorization
header the middleware either calls `next()` once or sends one 401 response, never both:
"no token" when the header is absent or does not start with "Bearer"; "token failed"
when verification throws; "user not found" when the decoded id matches no user; and
`next()` with `req.user` set to the stored user otherwise. -/
theorem protect_single_outcome (verify : Verify) (users : List User)
    (authorization : Option String)
    (hjwt : ∀ tok, tok = none ∨ tok = some "" → ∃ err, verify tok = .error err) :
    (∃ eff, protect verify users authorization = [eff])
    ∧ (authorization = none → protect verify users authorization
        = [.respond 401 "Not authorized, no token"])
    ∧ (∀ header, authorization = some header → startsWith header "Bearer" = false →
        protect verify users authorization = [.respond 401 "Not authorized, no token"])
    ∧ (∀ header err, authorization = some header → startsWith header "Bearer" = true →
        verify ((splitChars ' ' header.toList)[1]?) = .error err →
        protect verify users authorization = [.respond 401 "Not authorized, token failed"])
    ∧ (∀ header id, authorization = some header → startsWith header "Bearer" = true →
        verify ((splitChars ' ' header.toList)[1]?) = .ok id → User.findByPk users id = none →
        protect verify users authorization
          = [.respond 401 "Not authorized, user not found"])
    ∧ (∀ header id user, authorization = some header → startsWith header "Bearer" = true →
        verify ((splitChars ' ' header.toList)[1]?) = .ok id → User.findByPk users id = some user →
        protect verify users authorization = [.next user]) := by
  have hok : ∀ (header : String) (id : Option String), verify ((splitChars ' ' header.toList)[1]?) = .ok id →
      ¬ ((splitChars ' ' header.toList)[1]? = none ∨ (splitChars ' ' header.toList)[1]? = some "") := by
    intro header id hv hfalsy
    obtain ⟨err, herr⟩ := hjwt _ hfalsy
    rw [herr] at hv
    cases hv
  have h4 : ∀ header err, authorization = some header → startsWith header "Bearer" = true →
      verify ((splitChars ' ' header.toList)[1]?) = .error err →
      protect verify users authorization = [.respond 401 "Not authorized, token failed"] := by
    intro header err ha hb hv
    simp only [protect, ha, hb, startsWith_ne_empty header hb, ne_eq, not_false_eq_true,
      and_self, if_true, hv]
  have h5 : ∀ header id, authorization = some header → startsWith header "Bearer" = true →
      verify ((splitChars ' ' header.toList)[1]?) = .ok id → User.findByPk users id = none →
      protect verify users authorization
        = [.respond 401 "Not authorized, user not found"] := by
    intro header id ha hb hv hu
    simp only [protect, ha, hb, startsWith_ne_empty header hb, ne_eq, not_false_eq_true,
      and_self, if_true, hv, hu]
  have h6 : ∀ header id user, authorization = some header →
      startsWith header "Bearer" = true →
      verify ((splitChars ' ' header.toList)[1]?) = .ok id → User.findByPk users id = some user →
      protect verify users authorization = [.next user] := by
    intro header id user ha hb hv hu
    have hfalsy := hok header id hv
    simp only [protect, ha, hb, startsWith_ne_empty header hb, hv, hu, ne_eq, not_false_eq_true,
      and_self, if_true, hfalsy, if_false]
  have h2 : authorization = none → protect verify users authorization
      = [.respond 401 "Not authorized, no token"] := by
    intro ha
    simp [protect, ha]
  have h3 : ∀ header, authorization = some header → startsWith header "Bearer" = false →
      protect verify users authorization = [.respond 401 "Not authorized, no token"] := by
    intro header ha hb
    simp [protect, ha, hb]
  refine ⟨?_, h2, h3, h4, h5, h6⟩
  rcases ha : authorization with _ | header
  · exact ⟨_, ha ▸ h2 ha⟩
  · by_cases hb : startsWith header "Bearer" = true
    · rcases hv : verify ((splitChars ' ' header.toList)[1]?) with err | id
      · exact ⟨_, ha ▸ h4 header err ha hb hv⟩
      · rcases hu : User.findByPk users id with _ | user
        · exact ⟨_, ha ▸ h5 header id ha hb hv hu⟩
        · exact ⟨_, ha ▸ h6 header id user ha hb hv hu⟩
    · exact ⟨_, ha ▸ h3 header ha (by simpa using hb)⟩

/-- Witness for C28: the five requests of the unit tests' kinds against the sample
verification and the user "A". -/
theorem protect_single_outcome_witness :
    protect demoVerify [userA] (some "Bearer A") = [.next userA]
    ∧ protect demoVerify [userA] (some "Bearer Z")
        = [.respond 401 "Not authorized, user not found"]
    ∧ protect demoVerify [userA] (some "Bearer")
        = [.respond 401 "Not authorized, token failed"]
    ∧ protect demoVerify [userA] (some "Basic A") = [.respond 401 "Not authorized, no token"]
    ∧ protect demoVerify [userA] none = [.respond 401 "Not authorized, no token"]
    ∧ ∃ eff, protect demoVerify [userA] (some "Bearer A") = [eff] :=
  ⟨by rfl, by rfl, by rfl, by rfl, by rfl,
   (protect_single_outcome demoVerify [userA] (some "Bearer A")
      (by
        intro tok h
        rcases h with h | h <;> subst h <;> exact ⟨_, rfl⟩)).1⟩

/-- C29: on a server west of UTC a date-only due date is promoted on its own day. A
date-only due date of civil day `dueDay` is stored as midnight UTC of that day. For a
pending record with such a due date: when the server's offset is negative (down to one
day), a promotion run at any instant of local day `dueDay` sets it to "vencida"; when
the offset is zero or positive (below one day), a run on local day `dueDay` leaves it
pending; and a run on local day `dueDay + 1` promotes it in both cases. -/
theorem date_only_due_date_by_offset (clk : Clock) (t : Table) (i : Nat) (r : Factura)
    (dueDay : Int) (hi : t[i]? = some r) (hlive : r.deletedAt = none)
    (hpend : r.status = "pendiente") (hdue : r.fecha_de_vencimiento = dueDay * msPerDay)
    (hlo : -msPerDay ≤ clk.offset) (hhi : clk.offset < msPerDay) :
    (clk.offset < 0 → localDay clk clk.now = dueDay →
      (checkOverdueInvoices clk t).2[i]? = some { r with status := "vencida" })
    ∧ (0 ≤ clk.offset → localDay clk clk.now = dueDay →
      (checkOverdueInvoices clk t).2[i]? = some r)
    ∧ (localDay clk clk.now = dueDay + 1 →
      (checkOverdueInvoices clk t).2[i]? = some { r with status := "vencida" }) := by
  have hrow := checkOverdueInvoices_getElem clk t i r hi
  have hiff := lt_startOfToday_iff clk r.fecha_de_vencimiento
  simp only [localDay, msPerDay, hdue] at hiff hlo hhi
  simp only [localDay, msPerDay]
  refine ⟨?_, ?_, ?_⟩
  · intro hwest hrun
    have hlt : r.fecha_de_vencimiento < startOfToday clk := by
      rw [hdue]
      simp only [msPerDay]
      apply hiff.mpr
      omega
    rw [hrow]
    simp [overdueAt, hlive, hpend, hlt]
  · intro heast hrun
    have hge : ¬ r.fecha_de_vencimiento < startOfToday clk := by
      rw [hdue]
      simp only [msPerDay]
      intro h
      have := hiff.mp h
      omega
    rw [hrow]
    simp [overdueAt, hge]
  · intro hrun
    have hlt : r.fecha_de_vencimiento < startOfToday clk := by
      rw [hdue]
      simp only [msPerDay]
      apply hiff.mpr
      omega
    rw [hrow]
    simp [overdueAt, hlive, hpend, hlt]

/-- Witness for C29: invoice F-001, due "2025-01-01", on a server three hours west of UTC
at local midnight of 2025-01-01: the date-only string is midnight UTC, the run is on local
day 2025-01-01, and the invoice is promoted. -/
theorem date_only_due_date_by_offset_witness :
    dateOnlyValue "2025-01-01" = some f001.fecha_de_vencimiento
    ∧ localDay clockWestJan1 clockWestJan1.now = daysFromCivil 2025 1 1
    ∧ (checkOverdueInvoices clockWestJan1 [f001]).2[0]? = some { f001 with status := "vencida" } :=
  ⟨by rfl, by decide,
   (date_only_due_date_by_offset clockWestJan1 [f001] 0 f001 (daysFromCivil 2025 1 1)
      (by rfl) (by rfl) (by rfl) (by decide) (by decide) (by decide)).1
      (by decide) (by decide)⟩

/-- C30: the two job predicates never overlap. At one instant no record satisfies both
the `where` of overdue promotion (pending, due before the start of today) and the `where`
of the due-today job (pending, due from the start to the end of today); together they
select exactly the pending records due no later than the end of today; and a record the
due-today job selects is left as it is by a promotion run at the same instant. -/
theorem job_predicates_disjoint (clk : Clock) (t : Table) (i : Nat) (r : Factura) :
    checkOverdueInvoices clk t
        = Factura.update t (fun x => { x with status := "vencida" }) (overdueWhere clk)
    ∧ ¬ (overdueWhere clk r = true ∧ dueTodayWhere clk r = true)
    ∧ ((overdueWhere clk r = true ∨ dueTodayWhere clk r = true)
        ↔ (r.status = "pendiente" ∧ r.fecha_de_vencimiento ≤ endOfToday clk))
    ∧ (t[i]? = some r → dueTodayWhere clk r = true →
        (checkOverdueInvoices clk t).2[i]? = some r) := by
  have hend := endOfToday_eq clk
  refine ⟨rfl, ?_, ?_, ?_⟩
  · simp only [overdueWhere, dueTodayWhere, Bool.and_eq_true, decide_eq_true_eq]
    omega
  · simp only [overdueWhere, dueTodayWhere, Bool.and_eq_true, decide_eq_true_eq]
    constructor
    · rintro (⟨hp, hlt⟩ | ⟨⟨hp, _⟩, hle⟩)
      · exact ⟨hp, by omega⟩
      · exact ⟨hp, hle⟩
    · rintro ⟨hp, hle⟩
      by_cases hlt : r.fecha_de_vencimiento < startOfToday clk
      · exact Or.inl ⟨hp, hlt⟩
      · exact Or.inr ⟨⟨hp, by omega⟩, hle⟩
  · intro hi hdue
    rw [checkOverdueInvoices_getElem clk t i r hi]
    simp only [dueTodayWhere, Bool.and_eq_true, decide_eq_true_eq] at hdue
    have hge : ¬ r.fecha_de_vencimiento < startOfToday clk := by omega
    simp [overdueAt, hge]

end PaymentControl
